import Mathlib

/-!
Verification development for the polyline viewer/editor core
(geometry normalization, viewport transform, interactive editing,
serialization).  The TypeScript source is shallowly embedded:

* JavaScript numbers are modelled by `JsNum`: an exact rational for the
  finite doubles plus the three special values `NaN`, `Infinity`,
  `-Infinity`.  Finite arithmetic is exact (floating-point rounding and
  overflow are not modelled); the special values follow the IEEE/JS
  propagation rules used by the source.  Signed zero is not modelled
  (the source never divides by a negative zero it produced).
* Loosely-typed JavaScript values (parser output, parsed JSON) are
  modelled by the inductive `JsVal`.
* `Number(string)` coercion is modelled for decimal literals and the
  Infinity spellings; exotic forms (hex, exponent notation, object
  valueOf) are modelled as `NaN` — no theorem below depends on them.
-/

/-- Exact rational division avoiding the irreducible field inverse:
`qdiv a b = a / b` (see `qdiv_eq` below), kernel-computable. -/
def qdiv (a b : ℚ) : ℚ := Rat.divInt (a.num * b.den) (a.den * b.num)

/-- A JavaScript number: a finite (exact) rational, or NaN, or plus or
minus Infinity. -/
inductive JsNum where
  | fin (q : ℚ)
  | nan
  | pinf
  | ninf
deriving DecidableEq, Repr

namespace JsNum

/-- Model of `Number.isFinite`. -/
def isFin : JsNum → Bool
  | fin _ => true
  | _ => false

/-- The rational value of a finite `JsNum` (garbage 0 on the special
values; only used under an `isFin` guard). -/
def q0 : JsNum → ℚ
  | fin q => q
  | _ => 0

/-- Model of `Number.isInteger`. -/
def isInt : JsNum → Bool
  | fin q => q.den = 1
  | _ => false

/-- IEEE negation. -/
def neg : JsNum → JsNum
  | fin q => fin (-q)
  | nan => nan
  | pinf => ninf
  | ninf => pinf

/-- IEEE addition (exact on finite values). -/
def add : JsNum → JsNum → JsNum
  | fin a, fin b => fin (a + b)
  | nan, _ => nan
  | _, nan => nan
  | pinf, ninf => nan
  | ninf, pinf => nan
  | pinf, _ => pinf
  | _, pinf => pinf
  | ninf, _ => ninf
  | _, ninf => ninf

/-- IEEE subtraction. -/
def sub (a b : JsNum) : JsNum := add a (neg b)

/-- IEEE multiplication (exact on finite values). -/
def mul : JsNum → JsNum → JsNum
  | fin a, fin b => fin (a * b)
  | nan, _ => nan
  | _, nan => nan
  | pinf, pinf => pinf
  | pinf, ninf => ninf
  | ninf, pinf => ninf
  | ninf, ninf => pinf
  | pinf, fin b => if 0 < b then pinf else if b < 0 then ninf else nan
  | fin a, pinf => if 0 < a then pinf else if a < 0 then ninf else nan
  | ninf, fin b => if 0 < b then ninf else if b < 0 then pinf else nan
  | fin a, ninf => if 0 < a then ninf else if a < 0 then pinf else nan

/-- IEEE division (exact on finite values; division of a nonzero finite
by zero gives the infinity of the numerator's sign, `0/0` is NaN). -/
def div : JsNum → JsNum → JsNum
  | fin a, fin b =>
      if b = 0 then (if 0 < a then pinf else if a < 0 then ninf else nan)
      else fin (qdiv a b)
  | nan, _ => nan
  | _, nan => nan
  | pinf, pinf => nan
  | pinf, ninf => nan
  | ninf, pinf => nan
  | ninf, ninf => nan
  | fin _, pinf => fin 0
  | fin _, ninf => fin 0
  | pinf, fin b => if b < 0 then ninf else pinf
  | ninf, fin b => if b < 0 then pinf else ninf

/-- JavaScript `<` (false whenever NaN is involved). -/
def lt : JsNum → JsNum → Bool
  | fin a, fin b => a < b
  | nan, _ => false
  | _, nan => false
  | fin _, pinf => true
  | fin _, ninf => false
  | pinf, _ => false
  | ninf, ninf => false
  | ninf, _ => true

/-- JavaScript `<=` (false whenever NaN is involved). -/
def le : JsNum → JsNum → Bool
  | fin a, fin b => a ≤ b
  | nan, _ => false
  | _, nan => false
  | fin _, pinf => true
  | fin _, ninf => false
  | pinf, pinf => true
  | pinf, _ => false
  | ninf, _ => true

/-- Model of two-argument `Math.max` (NaN-propagating). -/
def jmax : JsNum → JsNum → JsNum
  | nan, _ => nan
  | _, nan => nan
  | a, b => if lt a b then b else a

/-- Model of two-argument `Math.min` (NaN-propagating). -/
def jmin : JsNum → JsNum → JsNum
  | nan, _ => nan
  | _, nan => nan
  | a, b => if lt b a then b else a

/-- Model of `Math.abs`. -/
def jabs : JsNum → JsNum
  | fin q => fin |q|
  | nan => nan
  | _ => pinf

end JsNum

/-- A loosely-typed JavaScript value, as produced by the external DXF
parser or by `JSON.parse`. -/
inductive JsVal where
  | undef
  | null
  | bool (b : Bool)
  | num (n : JsNum)
  | str (s : String)
  | arr (xs : List JsVal)
  | obj (fields : List (String × JsVal))

namespace JsVal

/-- Property access `v[k]` for a named property: assoc-list lookup on
objects, `undefined` everywhere else (array index and special
properties are never read by name in the embedded code). -/
def getF : JsVal → String → JsVal
  | obj fs, k => ((fs.find? (fun kv => kv.1 = k)).map (fun kv => kv.2)).getD undef
  | _, _ => undef

/-- The check performed by the source's `asRecord`: a non-null value of
`typeof` "object", i.e. a plain object or an array. -/
def isRec : JsVal → Bool
  | obj _ => true
  | arr _ => true
  | _ => false

/-- Model of `Array.isArray`. -/
def isArr : JsVal → Bool
  | arr _ => true
  | _ => false

/-- JavaScript truthiness. -/
def truthy : JsVal → Bool
  | undef => false
  | null => false
  | bool b => b
  | num (.fin q) => q ≠ 0
  | num .nan => false
  | num _ => true
  | str s => s ≠ ""
  | arr _ => true
  | obj _ => true

/-- Nullish test (`x ?? y` takes `y` exactly when `x` is nullish). -/
def isNullish : JsVal → Bool
  | undef => true
  | null => true
  | _ => false

/-- Test for `undefined`. -/
def isUndef : JsVal → Bool
  | undef => true
  | _ => false

/-- Strict equality `v === s` against a string literal. -/
def strIs (v : JsVal) (s : String) : Bool :=
  match v with
  | str t => t = s
  | _ => false

end JsVal

/-- Drop leading whitespace. -/
def dropWs (l : List Char) : List Char := l.dropWhile Char.isWhitespace

/-- Whitespace trim on the character list. -/
def trimChars (l : List Char) : List Char := (dropWs (dropWs l.reverse).reverse)

/-- Model of `String.prototype.trim` (ASCII whitespace; the source
never feeds exotic unicode whitespace through it). -/
def jsTrim (s : String) : String := ⟨trimChars s.data⟩

/-- Model of `String.prototype.toLowerCase` (ASCII; the compared
keywords are ASCII). -/
def jsToLower (s : String) : String := ⟨s.data.map Char.toLower⟩

/-- Split on whitespace (each maximal whitespace char starts a new,
possibly empty, chunk — matching `split(/\s+/)` up to the empty chunks
that the `filter(Boolean)` removes anyway). -/
def splitWsAux : List Char → List Char → List String
  | [], acc => [⟨acc.reverse⟩]
  | c :: rest, acc =>
      if c.isWhitespace then ⟨acc.reverse⟩ :: splitWsAux rest []
      else splitWsAux rest (c :: acc)

/-- One decimal digit. -/
def decDigit (c : Char) : Option ℕ :=
  if c.isDigit then some (c.toNat - 48) else none

/-- Value of a digit string (none if any char is not a digit). -/
def digitsVal (l : List Char) : Option ℕ :=
  l.foldl (fun acc c => match acc, decDigit c with
    | some n, some d => some (10 * n + d)
    | _, _ => none) (some 0)

/-- Split a char list at the first dot. -/
def splitDot : List Char → List Char × Option (List Char)
  | [] => ([], none)
  | c :: rest =>
      if c = '.' then ([], some rest)
      else
        let r := splitDot rest
        (c :: r.1, r.2)

/-- Parse an unsigned decimal literal `digits [. digits]` with at least
one digit overall. -/
def parseUnsignedDec (l : List Char) : Option ℚ :=
  let (ip, fp) := splitDot l
  match fp with
  | none => (digitsVal ip).map (fun n => (n : ℚ))
  | some f =>
      if ip = [] ∧ f = [] then none
      else match digitsVal ip, digitsVal f with
        | some n, some m => some ((n : ℚ) + mkRat (m : ℤ) (10 ^ f.length))
        | _, _ => none

/-- Parse a signed decimal literal. -/
def parseDec : List Char → Option ℚ
  | [] => none
  | '+' :: rest => parseUnsignedDec rest
  | '-' :: rest => (parseUnsignedDec rest).map Neg.neg
  | l => parseUnsignedDec l

/-- Model of `Number(string)`: empty/whitespace is 0, the Infinity
spellings, plain decimal literals; everything else NaN (hex and
exponent literals are not modelled — no theorem depends on them). -/
def parseNumStr (s : String) : JsNum :=
  let t := jsTrim s
  if t = "" then .fin 0
  else if t = "Infinity" ∨ t = "+Infinity" then .pinf
  else if t = "-Infinity" then .ninf
  else match parseDec t.toList with
    | some q => .fin q
    | none => .nan

/-- Model of the JavaScript `Number(v)` coercion.  Arrays and objects
are modelled as NaN (their `toString`-based coercion is not needed by
any theorem below). -/
def toNumber : JsVal → JsNum
  | .num n => n
  | .null => .fin 0
  | .undef => .nan
  | .bool b => .fin (if b then 1 else 0)
  | .str s => parseNumStr s
  | .arr _ => .nan
  | .obj _ => .nan

/-- Base-36 digit, as used by `Number.prototype.toString(36)`. -/
def b36digit (n : ℕ) : Char :=
  if n < 10 then Char.ofNat (48 + n) else Char.ofNat (87 + n)

/-- Base-36 digits of `n` (fuelled; fuel `n+1` is always enough). -/
def natToB36Aux : ℕ → ℕ → List Char
  | 0, _ => []
  | fuel + 1, n => if n = 0 then [] else natToB36Aux fuel (n / 36) ++ [b36digit (n % 36)]

/-- Model of `n.toString(36)` for natural numbers. -/
def natToB36 (n : ℕ) : String :=
  if n = 0 then "0" else ⟨natToB36Aux (n + 1) n⟩

/-- Model of `nextPolylineId`: bumps the module-global `polylineIdSeq`
and returns the fresh id together with the new counter. -/
def nextPolylineId (pre : String) (seq : ℕ) : String × ℕ :=
  (pre ++ "-" ++ natToB36 (seq + 1), seq + 1)

/-- A point as stored in a Polyline Item: a pair of JavaScript numbers
(the normalizer is supposed to only ever store finite ones). -/
abbrev JPt := JsNum × JsNum

/-- Shorthand for a finite point. -/
def fp (x y : ℚ) : JPt := (.fin x, .fin y)

/-- Model of `normalizePoint`'s helper for the `[x, y]` branch: the
`Number()` coercion attempt after the fast number path failed. -/
def coercePair (x y : JsVal) : Option JPt :=
  let nx := toNumber x
  let ny := toNumber y
  if nx.isFin ∧ ny.isFin then some (nx, ny) else none

/-- Model of `normalizePoint` (src/unnamed/part_001:78): `[x,y]` pairs
are finiteness-checked (coercing strings etc. through `Number`), while
`{x,y}` records are accepted whenever both fields are numbers — with no
finiteness check, exactly as in the source. -/
def normalizePoint (p : JsVal) : Option JPt :=
  match p with
  | .arr [x, y] =>
      match x, y with
      | .num nx, .num ny =>
          if nx.isFin ∧ ny.isFin then some (nx, ny) else coercePair x y
      | _, _ => coercePair x y
  | v =>
      match v.getF "x", v.getF "y" with
      | .num nx, .num ny => some (nx, ny)
      | _, _ => none

/-- The collection loop shared by both branches of
`normalizePolylinePointsLike`. -/
def collectPts (l : List JsVal) : List JPt :=
  l.filterMap normalizePoint

/-- Model of `normalizePolylinePointsLike` (src/unnamed/part_001:183). -/
def normalizePolylinePointsLike (pl : JsVal) : Option (List JPt) :=
  match pl with
  | .arr l =>
      let pts := collectPts l
      if 2 ≤ pts.length then some pts else none
  | v =>
      match v.getF "vertices" with
      | .arr l =>
          let pts := collectPts l
          if 2 ≤ pts.length then some pts else none
      | _ => none

/-- Model of `normalizeLayer` (src/unnamed/part_001:94). -/
def normalizeLayer (v : JsVal) : String :=
  match v with
  | .str s => let t := jsTrim s; if t = "" then "0" else t
  | r =>
      let name : Option String :=
        match r.getF "name" with
        | .str s => some s
        | _ => match r.getF "layer" with
          | .str s => some s
          | _ => none
      match name with
      | some s => let t := jsTrim s; if t = "" then "0" else t
      | none => "0"

/-- Model of `normalizeType` (src/unnamed/part_001:108). -/
def normalizeType (v : JsVal) : String :=
  match v with
  | .str s => let t := jsTrim s; if t = "" then "POLYLINE" else t
  | _ => "POLYLINE"

/-- Model of `normalizeFiniteNumber` (src/unnamed/part_001:114). -/
def normalizeFiniteNumber (v : JsVal) (fallback : ℚ) : ℚ :=
  match v with
  | .num (.fin q) => q
  | w => match toNumber w with
    | .fin q => q
    | _ => fallback

/-- Hexadecimal digit test. -/
def isHexDig (c : Char) : Bool :=
  c.isDigit ∨ ('a' ≤ c ∧ c ≤ 'f') ∨ ('A' ≤ c ∧ c ≤ 'F')

/-- Test for the `^#[0-9a-fA-F]{6}$` pattern. -/
def isHex6 (s : String) : Bool :=
  match s.toList with
  | '#' :: rest => rest.length = 6 ∧ rest.all isHexDig
  | _ => false

/-- Model of `normalizeColorHex` (src/unnamed/part_001:120). -/
def normalizeColorHex (v : JsVal) (fallback : String) : String :=
  match v with
  | .str s => let t := jsTrim s; if isHex6 t then jsToLower t else fallback
  | _ => fallback

/-- The four line types of the layer style model. -/
inductive LineType where
  | solid
  | dash
  | dot
  | dashdot
deriving DecidableEq, Repr

/-- Serialization of a line type (its TypeScript string literal). -/
def lineTypeStr : LineType → String
  | .solid => "solid"
  | .dash => "dash"
  | .dot => "dot"
  | .dashdot => "dashdot"

/-- Model of `normalizeLayerLineType` (src/unnamed/part_001:143). -/
def normalizeLayerLineType (v : JsVal) : LineType :=
  if v.strIs "dash" then .dash
  else if v.strIs "dot" then .dot
  else if v.strIs "dashdot" then .dashdot
  else .solid

/-- Per-item partial style override, `PolylineLineOverride` in the
source. -/
structure LineOverride where
  type : Option LineType
  color : Option String
  width : Option ℚ
deriving DecidableEq, Repr

/-- The canonical drawing primitive, `PolylineItem` in the source.  The
`visible` field is stored as a plain Bool: every construction site in
the source writes `Boolean(...)` into it.  `source` holds the opaque
original entity data. -/
structure PolylineItem where
  id : String
  layer : String
  type : String
  points : List JPt
  visible : Bool
  entityIndex : Option ℕ
  lineOverride : Option LineOverride
  source : Option JsVal

/-- Model of `normalizePolylineItemLike` (src/unnamed/part_001:251),
threading the module-global id counter. -/
def normalizePolylineItemLike (pl : JsVal) (seq : ℕ) : Option PolylineItem × ℕ :=
  if pl.isRec ∧ (pl.getF "points").isArr then
    match normalizePolylinePointsLike (pl.getF "points") with
    | none => (none, seq)
    | some points =>
        let lo := pl.getF "lineOverride"
        let lineOverride : Option LineOverride :=
          if lo.isRec ∧ ((lo.getF "type").truthy ∨ (lo.getF "color").truthy ∨
              (lo.getF "width").truthy) then
            some {
              type := if (lo.getF "type").truthy
                then some (normalizeLayerLineType (lo.getF "type")) else none
              color := if (lo.getF "color").truthy
                then some (normalizeColorHex (lo.getF "color") "#000000") else none
              width := if ¬(lo.getF "width").isUndef
                then some (max (mkRat 1 10) (normalizeFiniteNumber (lo.getF "width") 1))
                else none }
          else none
        let entityIndex : Option ℕ :=
          match pl.getF "entityIndex" with
          | .num (.fin q) => if q.den = 1 ∧ 0 ≤ q.num then some q.num.toNat else none
          | _ => none
        let (id, seq2) :=
          match pl.getF "id" with
          | .str s => if jsTrim s ≠ "" then (s, seq) else nextPolylineId "json" seq
          | _ => nextPolylineId "json" seq
        (some {
          id := id
          layer := normalizeLayer (pl.getF "layer")
          type := normalizeType (pl.getF "type")
          points := points
          visible := if (pl.getF "visible").isNullish then true else (pl.getF "visible").truthy
          entityIndex := entityIndex
          lineOverride := lineOverride
          source := none }, seq2)
  else
    match normalizePolylinePointsLike pl with
    | none => (none, seq)
    | some points =>
        let (id, seq2) := nextPolylineId "pl" seq
        (some {
          id := id
          layer := normalizeLayer (pl.getF "layer")
          type := normalizeType (pl.getF "type")
          points := points
          visible := if (pl.getF "visible").isNullish then true else (pl.getF "visible").truthy
          entityIndex := none
          lineOverride := none
          source := none }, seq2)

/-- The collection loop of `normalizePolylines`. -/
def normPolyList : List JsVal → ℕ → List PolylineItem × ℕ
  | [], seq => ([], seq)
  | pl :: rest, seq =>
      match normalizePolylineItemLike pl seq with
      | (some it, seq2) =>
          let (tail, seq3) := normPolyList rest seq2
          (it :: tail, seq3)
      | (none, seq2) => normPolyList rest seq2

/-- Model of `normalizePolylines` (src/unnamed/part_001:294). -/
def normalizePolylines (input : JsVal) (seq : ℕ) : List PolylineItem × ℕ :=
  let raw : List JsVal :=
    match input with
    | .arr l => l
    | v => match v.getF "polylines" with
      | .arr l => l
      | _ => []
  normPolyList raw seq

/-- Per-layer line style. -/
structure LineStyle where
  type : LineType
  color : String
  width : ℚ
deriving DecidableEq, Repr

/-- Per-layer point style. -/
structure PointStyle where
  size : ℚ
deriving DecidableEq, Repr

/-- Per-layer text style. -/
structure TextStyle where
  fontFamily : String
  italicAngle : ℚ
  bold : Bool
  fontSize : ℚ
  widthFactor : ℚ
  color : String
deriving DecidableEq, Repr

/-- Per-layer dimension style. -/
structure DimStyle where
  scale : ℚ
  textSize : ℚ
  arrowSize : ℚ
  lineGap : ℚ
deriving DecidableEq, Repr

/-- Per-layer rendering defaults, `LayerStyle` in the source. -/
structure LayerStyle where
  line : LineStyle
  point : PointStyle
  text : TextStyle
  dim : DimStyle
deriving DecidableEq, Repr

/-- Model of `defaultLayerStyle` (src/unnamed/part_001:127); decimal
literals are carried exactly. -/
def defaultLayerStyle : LayerStyle where
  line := { type := .solid, color := "#2c3e50", width := 1 }
  point := { size := mkRat 4 5 }
  text := {
    fontFamily := "sans-serif"
    italicAngle := 0
    bold := false
    fontSize := 12
    widthFactor := 1
    color := "#111111" }
  dim := { scale := 1, textSize := 12, arrowSize := mkRat 5 2, lineGap := 2 }

/-- Model of `normalizeLayerStyle` (src/unnamed/part_001:147). -/
def normalizeLayerStyle (v : JsVal) : LayerStyle :=
  let d := defaultLayerStyle
  let line := v.getF "line"
  let point := v.getF "point"
  let text := v.getF "text"
  let dim := v.getF "dim"
  { line := {
      type := normalizeLayerLineType (line.getF "type")
      color := normalizeColorHex (line.getF "color") d.line.color
      width := max (mkRat 1 10) (normalizeFiniteNumber (line.getF "width") d.line.width) }
    point := {
      size := max (mkRat 1 10) (normalizeFiniteNumber (point.getF "size") d.point.size) }
    text := {
      fontFamily :=
        match text.getF "fontFamily" with
        | .str s => if jsTrim s ≠ "" then s else d.text.fontFamily
        | _ => d.text.fontFamily
      italicAngle := normalizeFiniteNumber (text.getF "italicAngle") d.text.italicAngle
      bold := if (text.getF "bold").isNullish then d.text.bold else (text.getF "bold").truthy
      fontSize := max 1 (normalizeFiniteNumber (text.getF "fontSize") d.text.fontSize)
      widthFactor := max (mkRat 1 10) (normalizeFiniteNumber (text.getF "widthFactor") d.text.widthFactor)
      color := normalizeColorHex (text.getF "color") d.text.color }
    dim := {
      scale := max (mkRat 1 100) (normalizeFiniteNumber (dim.getF "scale") d.dim.scale)
      textSize := max 1 (normalizeFiniteNumber (dim.getF "textSize") d.dim.textSize)
      arrowSize := max (mkRat 1 10) (normalizeFiniteNumber (dim.getF "arrowSize") d.dim.arrowSize)
      lineGap := max 0 (normalizeFiniteNumber (dim.getF "lineGap") d.dim.lineGap) } }

/-- A number as it survives `JSON.stringify`/`JSON.parse`: non-finite
doubles serialize as `null`. -/
def numOrNull (n : JsNum) : JsVal :=
  match n with
  | .fin q => .num (.fin q)
  | _ => .null

/-- A stored point as it appears in the parsed canonical JSON
document. -/
def pointVal (p : JPt) : JsVal :=
  .arr [numOrNull p.1, numOrNull p.2]

/-- A line override as it appears in the parsed canonical JSON document
(object properties whose value is `undefined` are dropped by
`JSON.stringify`). -/
def overrideVal (o : LineOverride) : JsVal :=
  .obj ((match o.type with
          | some t => [("type", JsVal.str (lineTypeStr t))]
          | none => []) ++
        (match o.color with
          | some c => [("color", JsVal.str c)]
          | none => []) ++
        (match o.width with
          | some w => [("width", JsVal.num (.fin w))]
          | none => []))

/-- One polyline record of the canonical JSON export, after a
`JSON.stringify`/`JSON.parse` round trip (src/unnamed/part_001:446,
the `exportJson` computed property). -/
def exportedPolyVal (it : PolylineItem) : JsVal :=
  .obj ([("id", JsVal.str it.id),
         ("layer", JsVal.str it.layer),
         ("type", JsVal.str it.type),
         ("points", JsVal.arr (it.points.map pointVal)),
         ("visible", JsVal.bool it.visible)] ++
        (match it.entityIndex with
          | some n => [("entityIndex", JsVal.num (.fin n))]
          | none => []) ++
        (match it.lineOverride with
          | some o => [("lineOverride", overrideVal o)]
          | none => []))

/-- One layer record of the canonical JSON export (the spread
`{...style, visible}`). -/
def layerVal (st : LayerStyle) (vis : Bool) : JsVal :=
  .obj [
    ("line", .obj [
      ("type", JsVal.str (lineTypeStr st.line.type)),
      ("color", JsVal.str st.line.color),
      ("width", JsVal.num (.fin st.line.width))]),
    ("point", .obj [("size", JsVal.num (.fin st.point.size))]),
    ("text", .obj [
      ("fontFamily", JsVal.str st.text.fontFamily),
      ("italicAngle", JsVal.num (.fin st.text.italicAngle)),
      ("bold", JsVal.bool st.text.bold),
      ("fontSize", JsVal.num (.fin st.text.fontSize)),
      ("widthFactor", JsVal.num (.fin st.text.widthFactor)),
      ("color", JsVal.str st.text.color)]),
    ("dim", .obj [
      ("scale", JsVal.num (.fin st.dim.scale)),
      ("textSize", JsVal.num (.fin st.dim.textSize)),
      ("arrowSize", JsVal.num (.fin st.dim.arrowSize)),
      ("lineGap", JsVal.num (.fin st.dim.lineGap))]),
    ("visible", JsVal.bool vis)]

/-- The `visiblePolylineItems` projection: layer-filter membership plus
the item-level flag. -/
def visibleItemsOf (items : List PolylineItem) (visLayers : List String) : List PolylineItem :=
  items.filter (fun it => visLayers.contains it.layer ∧ it.visible)

/-- The whole canonical JSON document produced by `exportJson`, already
put through a `JSON.stringify`/`JSON.parse` transport (the text layer
itself is not modelled: on the JSON-safe values produced here the
composition is the identity up to dropped `undefined` properties, which
this constructor never emits). -/
def exportDocVal (items : List PolylineItem) (styles : List (String × LayerStyle))
    (visLayers : List String) : JsVal :=
  .obj [
    ("polylines", .arr ((visibleItemsOf items visLayers).map exportedPolyVal)),
    ("layers", .obj (styles.map (fun kv => (kv.1, layerVal kv.2 (visLayers.contains kv.1)))))]

/-- Viewport Bounds as held in `viewBounds`: the four edges.  The
state itself always holds finite doubles, modelled as exact rationals
(inputs that could be non-finite enter through `JBounds` below and are
guarded before reaching this type). -/
structure QBounds where
  minX : ℚ
  minY : ℚ
  maxX : ℚ
  maxY : ℚ
deriving DecidableEq, Repr

/-- A possibly non-finite rectangle, as handed to
`setViewToContentBounds` (e.g. a bounding-box fold over points). -/
structure JBounds where
  minX : JsNum
  minY : JsNum
  maxX : JsNum
  maxY : JsNum
deriving DecidableEq, Repr

/-- Injection of finite bounds. -/
def QBounds.toJ (b : QBounds) : JBounds :=
  ⟨.fin b.minX, .fin b.minY, .fin b.maxX, .fin b.maxY⟩

/-- The Viewport Bounds invariant of the specification: positive width
and height (finiteness holds by the `QBounds` representation). -/
def vbInv (b : QBounds) : Prop :=
  b.minX < b.maxX ∧ b.minY < b.maxY

instance (b : QBounds) : Decidable (vbInv b) := by unfold vbInv; infer_instance

/-- The aspect-correction step of `setViewToContentBounds`
(src/unnamed/part_001:953-972): letterbox the padded box to the
rendering surface's aspect.  The two `isFinite` checks of the source
cannot fire in exact arithmetic. -/
def aspectAdjust (vw vh : ℚ) (b : QBounds) : QBounds :=
  if 0 < vw ∧ 0 < vh then
    let vpr := qdiv vw vh
    let w := b.maxX - b.minX
    let h := b.maxY - b.minY
    let contentR := qdiv w h
    if 0 < vpr then
      if vpr < contentR then
        let extra := qdiv w vpr - h
        ⟨b.minX, b.minY - qdiv extra 2, b.maxX, b.maxY + qdiv extra 2⟩
      else if contentR < vpr then
        let extra := h * vpr - w
        ⟨b.minX - qdiv extra 2, b.minY, b.maxX + qdiv extra 2, b.maxY⟩
      else b
    else b
  else b

/-- The padded ordered box of `setViewToContentBounds`: the two
swaps, the span fallback (`span <= 0` is replaced by 100 — the
finiteness half of the source's test cannot fire in exact arithmetic),
the clamped pad ratio (default 0.05 for a non-finite one), and the
symmetric padding. -/
def paddedBox (minX0 minY0 maxX0 maxY0 : ℚ) (padR : JsNum) : QBounds :=
  let minX1 := if maxX0 < minX0 then maxX0 else minX0
  let maxX1 := if maxX0 < minX0 then minX0 else maxX0
  let minY1 := if maxY0 < minY0 then maxY0 else minY0
  let maxY1 := if maxY0 < minY0 then minY0 else maxY0
  let w0 := maxX1 - minX1
  let h0 := maxY1 - minY1
  let span := if max w0 h0 ≤ 0 then 100 else max w0 h0
  let pr := match padR with
    | .fin q => max 0 (min (mkRat 1 2) q)
    | _ => mkRat 1 20
  let pad := span * pr
  ⟨minX1 - pad, minY1 - pad, maxX1 + pad, maxY1 + pad⟩

/-- Model of `setViewToContentBounds` (src/unnamed/part_001:926).
`vw`, `vh` are the rendering surface's `clientWidth`/`clientHeight`
(zero when no surface is mounted); `cur` is the current `viewBounds`,
returned unchanged on every discarded update (the source's early
`return`s; the finiteness half of the post-padding test cannot fire in
exact arithmetic). -/
def setViewToContentBounds (vw vh : ℚ) (bounds : JBounds) (padR : JsNum)
    (cur : QBounds) : QBounds :=
  if bounds.minX.isFin ∧ bounds.minY.isFin ∧ bounds.maxX.isFin ∧ bounds.maxY.isFin then
    let pb := paddedBox bounds.minX.q0 bounds.minY.q0 bounds.maxX.q0 bounds.maxY.q0 padR
    if pb.maxX - pb.minX ≤ 0 ∨ pb.maxY - pb.minY ≤ 0 then cur
    else aspectAdjust vw vh pb
  else cur

/-- Model of `onWheel` (src/unnamed/part_001:1217).  `px`, `py` is the
model-space cursor point from `clientToModel` (finite whenever the
rendering transform is valid — the only case in which the handler
proceeds), and `scale` stands for the value
`Math.exp(clamp(deltaY, -10, 10) * 0.0012)`, which is always a finite
positive double; it is a parameter because `Math.exp` is
transcendental. -/
def onWheel (b : QBounds) (px py : ℚ) (scale : ℚ) : QBounds :=
  let w := b.maxX - b.minX
  let h := b.maxY - b.minY
  let nextW := max 1 (min 1000000000 (w * scale))
  let nextH := max 1 (min 1000000000 (h * scale))
  let rx := if w = 0 then mkRat 1 2 else qdiv (px - b.minX) w
  let ry := if h = 0 then mkRat 1 2 else qdiv (py - b.minY) h
  let minX := px - rx * nextW
  let maxX := minX + nextW
  let minY := py - ry * nextH
  let maxY := minY + nextH
  ⟨minX, minY, maxX, maxY⟩

/-- The panning branch of `onPointerMove` (src/unnamed/part_001:1100):
the snapshot bounds shifted opposite to the gesture delta. -/
def panBounds (snap : QBounds) (dx dy : ℚ) : QBounds :=
  ⟨snap.minX - dx, snap.minY - dy, snap.maxX - dx, snap.maxY - dy⟩

/-- One viewport update: wheel zoom, pan, or fit-to-content, each with
its externally supplied inputs (`hs` records that `Math.exp` only
returns positive values). -/
inductive ViewStep (vw vh : ℚ) : QBounds → QBounds → Prop where
  | wheel (b : QBounds) (px py scale : ℚ) (hs : 0 < scale) :
      ViewStep vw vh b (onWheel b px py scale)
  | pan (b : QBounds) (dx dy : ℚ) :
      ViewStep vw vh b (panBounds b dx dy)
  | fit (b : QBounds) (bounds : JBounds) (padR : JsNum) :
      ViewStep vw vh b (setViewToContentBounds vw vh bounds padR b)

/-- The initial `viewBounds` value. -/
def initViewBounds : QBounds := ⟨0, 0, 100, 100⟩

/-- Viewport Bounds states reachable from the initial bounds by
zoom/pan/fit. -/
def viewReachable (vw vh : ℚ) (b : QBounds) : Prop :=
  Relation.ReflTransGen (ViewStep vw vh) initViewBounds b

/-- Model of `findItemById` (src/unnamed/part_001:897). -/
def findItemById (items : List PolylineItem) (id : String) : Option PolylineItem :=
  items.find? (fun x => x.id = id)

/-- In-place mutation of the first item with the given id (the source
finds the item object and mutates it). -/
def updateFirstById (items : List PolylineItem) (id : String)
    (f : PolylineItem → PolylineItem) : List PolylineItem :=
  match items.findIdx? (fun x => x.id = id) with
  | none => items
  | some i => match items[i]? with
    | some it => items.set i (f it)
    | none => items

/-- A point selection `{id, ptIndex}` (`selected` in the source). -/
abbrev Sel := String × ℕ

/-- Model of `deleteSelectedPoint` (src/unnamed/part_001:1290), acting
on the item list and the point selection. -/
def deleteSelectedPoint (items : List PolylineItem) (sel : Option Sel) :
    List PolylineItem × Option Sel :=
  match sel with
  | none => (items, sel)
  | some (id, ptIndex) =>
      match items.findIdx? (fun x => x.id = id) with
      | none => (items, sel)
      | some idx =>
          match items[idx]? with
          | none => (items, sel)
          | some it =>
              if ptIndex < it.points.length then
                if it.points.length ≤ 2 then
                  (items.eraseIdx idx, none)
                else
                  (items.set idx { it with points := it.points.eraseIdx ptIndex },
                   some (id, ptIndex - 1))
              else (items, sel)

/-- The clamped-projection foot point of `p` on segment `a`-`b`
(the `cx`, `cy` of `insertPointOnPolyline`,
src/unnamed/part_001:1266-1276). -/
def segClosest (a b p : JPt) : JPt :=
  let abx := JsNum.sub b.1 a.1
  let aby := JsNum.sub b.2 a.2
  let apx := JsNum.sub p.1 a.1
  let apy := JsNum.sub p.2 a.2
  let abLen2 := JsNum.add (JsNum.mul abx abx) (JsNum.mul aby aby)
  let t := if abLen2 = .fin 0 then .fin 0
    else JsNum.jmax (.fin 0) (JsNum.jmin (.fin 1)
      (JsNum.div (JsNum.add (JsNum.mul apx abx) (JsNum.mul apy aby)) abLen2))
  (JsNum.add a.1 (JsNum.mul t abx), JsNum.add a.2 (JsNum.mul t aby))

/-- Squared distance from `p` to its clamped projection on `a`-`b`
(the `d2` of the segment scan). -/
def segDist2 (a b p : JPt) : JsNum :=
  let c := segClosest a b p
  let dx := JsNum.sub p.1 c.1
  let dy := JsNum.sub p.2 c.2
  JsNum.add (JsNum.mul dx dx) (JsNum.mul dy dy)

/-- The default point used for (always in-range) list indexing in the
segment scan. -/
def dfltPt : JPt := (.fin 0, .fin 0)

/-- The segment scan of `insertPointOnPolyline`: first index of
strictly smallest clamped-projection distance, starting from
`bestSeg = 0`, `bestDist2 = Infinity`. -/
def bestSegOf (pl : List JPt) (p : JPt) : ℕ :=
  ((List.range (pl.length - 1)).foldl
    (fun (acc : ℕ × JsNum) i =>
      if JsNum.lt (segDist2 (pl.getD i dfltPt) (pl.getD (i + 1) dfltPt) p) acc.2
      then (i, segDist2 (pl.getD i dfltPt) (pl.getD (i + 1) dfltPt) p) else acc)
    (0, JsNum.pinf)).1

/-- Model of `insertPointOnPolyline` (src/unnamed/part_001:1257): note
that the point spliced in is the clicked point `p` itself, at index
`bestSeg + 1`. -/
def insertPointOnPolyline (items : List PolylineItem) (sel : Option Sel)
    (id : String) (p : JPt) : List PolylineItem × Option Sel :=
  match findItemById items id with
  | none => (items, sel)
  | some it =>
      if it.points.length < 2 then (items, sel)
      else
        let bestSeg := bestSegOf it.points p
        (updateFirstById items id
          (fun x => { x with points := x.points.insertIdx (bestSeg + 1) p }),
         some (id, bestSeg + 1))

/-- The bounding-box accumulation loop used by `focusPolyline` and the
`scale`/`rotate` commands: `minX = Infinity; ... if (x < minX) ...`. -/
def bboxFold (pts : List JPt) : JBounds :=
  pts.foldl
    (fun b p =>
      ⟨if JsNum.lt p.1 b.minX then p.1 else b.minX,
       if JsNum.lt p.2 b.minY then p.2 else b.minY,
       if JsNum.lt b.maxX p.1 then p.1 else b.maxX,
       if JsNum.lt b.maxY p.2 then p.2 else b.maxY⟩)
    ⟨.pinf, .pinf, .ninf, .ninf⟩

/-- Tolerance `1e-6` of the closed-ring test (as an exact decimal). -/
def closeTol : ℚ := mkRat 1 1000000

/-- Per-axis closeness test of two points under the `1e-6` tolerance
(the `Math.abs(...) < tol && Math.abs(...) < tol` of
`polylineClosedFlag`). -/
def ptsClose (a b : JPt) : Bool :=
  JsNum.lt (JsNum.jabs (JsNum.sub a.1 b.1)) (.fin closeTol) ∧
  JsNum.lt (JsNum.jabs (JsNum.sub a.2 b.2)) (.fin closeTol)

/-- Model of `polylineClosedFlag` (src/unnamed/part_001:1419): closed
iff at least 3 points and the last point duplicates the first within
tolerance; a closed ring drops the duplicated closing vertex. -/
def polylineClosedFlag (pl : List JPt) : Bool × List JPt :=
  if pl.length < 3 then (false, pl)
  else
    let first := pl.getD 0 dfltPt
    let last := pl.getD (pl.length - 1) dfltPt
    let closed := ptsClose first last
    (closed, if closed then pl.dropLast else pl)

/-- The vertex count a polyline contributes to the DXF stream (the
value written with group code 90). -/
def dxfVertexCount (pl : List JPt) : ℕ :=
  (polylineClosedFlag pl).2.length

/-- A value of the DXF line stream before its `String(...)` conversion
(`String` is injective on the emitted numbers, so the conversion itself
is not modelled). -/
inductive DxfCell where
  | s (v : String)
  | n (v : JsNum)
deriving Repr

/-- The `pushPair` record for one polyline of `toDxfString`
(src/unnamed/part_001:1442-1454); items whose deduplicated vertex list
has fewer than 2 entries are skipped. -/
def dxfEntityCells (it : PolylineItem) : List (ℕ × DxfCell) :=
  let fl := polylineClosedFlag it.points
  if fl.2.length < 2 then []
  else
    [(0, .s "LWPOLYLINE"), (100, .s "AcDbEntity"),
     (8, .s (if it.layer = "" then "0" else it.layer)),
     (100, .s "AcDbPolyline"),
     (90, .n (.fin fl.2.length)),
     (70, .n (.fin (if fl.1 then 1 else 0)))] ++
    fl.2.foldr (fun p acc => (10, DxfCell.n p.1) :: (20, DxfCell.n p.2) :: acc) []

/-- Model of `toDxfString` (src/unnamed/part_001:1428) as the stream of
group-code/value pairs it pushes. -/
def toDxfCells (items : List PolylineItem) (visLayers : List String) : List (ℕ × DxfCell) :=
  [(0, DxfCell.s "SECTION"), (2, DxfCell.s "HEADER"),
   (9, DxfCell.s "$ACADVER"), (1, DxfCell.s "AC1027"),
   (0, DxfCell.s "ENDSEC"), (0, DxfCell.s "SECTION"), (2, DxfCell.s "ENTITIES")] ++
  (visibleItemsOf items visLayers).foldr (fun it acc => dxfEntityCells it ++ acc) [] ++
  [(0, DxfCell.s "ENDSEC"), (0, DxfCell.s "EOF")]

/-- One emitted SVG coordinate: the pair `(x, -y)` behind the string
`"${x},${-y}"` (the string formatting of doubles is injective, so pair
equality models the string comparison in the final dedup check; note
that this also holds for the special values, whose formatting is also
injective). -/
def negY (p : JPt) : JPt :=
  (p.1, JsNum.neg p.2)

/-- The sampling loop of `toSvgPoints` for a finite step greater
than 1: visits positions `0, step, 2·step, ...`; a fractional position
below the length reads `pl[i] = undefined` and the destructuring throws
(modelled as `none`).  `fuel` bounds the iteration count; since
`step > 1`, position `k·step` reaches the length after at most
`pl.length` iterations beyond the start. -/
def svgSampleLoop (pl : List JPt) (step : ℚ) : ℕ → ℕ → Option (List JPt)
  | _, 0 => none
  | k, fuel + 1 =>
      let pos := step * k
      if (pl.length : ℚ) ≤ pos then some []
      else if pos.den = 1 then
        (svgSampleLoop pl step (k + 1) fuel).map
          (fun rest => negY (pl.getD pos.num.toNat dfltPt) :: rest)
      else none

/-- Model of `toSvgPoints` (src/unnamed/part_001:901) as the list of
emitted coordinates; `none` models the `TypeError` thrown on a
fractional in-range index. -/
def toSvgPts (pl : List JPt) (step : JsNum) : Option (List JPt) :=
  if ¬step.isFin ∨ JsNum.le step (.fin 1) then some (pl.map negY)
  else
    (svgSampleLoop pl step.q0 0 (pl.length + 1)).map (fun pts =>
      if 2 ≤ pl.length then
        let last := negY (pl.getD (pl.length - 1) dfltPt)
        if pts.getLast? = some last then pts else pts ++ [last]
      else pts)

/-- Tri-state operation status (`'idle' | 'ok' | 'fail'`). -/
inductive TriState where
  | idle
  | ok
  | fail
deriving DecidableEq, Repr

/-- The editing-session state: the refs touched by the textual command
interpreter and the operations it calls.  `jsonDraftParse` models the
draft text of the JSON editor through the eyes of `JSON.parse`: `none`
for text that does not parse (e.g. the empty string), `some v` for text
parsing to `v`.  `polylineIdSeq` is the module-global id counter. -/
structure EditorState where
  polylineItems : List PolylineItem
  bboxBounds : Option QBounds
  viewBounds : QBounds
  selected : Option Sel
  selectedItemId : Option String
  selectedEntityIndex : Option ℕ
  entityVisibleOverrides : List (String × Bool)
  selectedLayers : List String
  layerStyles : List (String × LayerStyle)
  parsedDxf : Option JsVal
  fileName : Option String
  copyState : TriState
  jsonDraftParse : Option JsVal
  jsonState : TriState
  commandLine : String
  commandState : TriState
  polylineIdSeq : ℕ

/-- Model of `clearAll` (src/unnamed/part_001:1607); the id counter is
module-global and not reset. -/
def clearAll (st : EditorState) : EditorState :=
  { st with
    polylineItems := []
    bboxBounds := none
    viewBounds := ⟨0, 0, 100, 100⟩
    parsedDxf := none
    fileName := none
    selected := none
    selectedItemId := none
    selectedEntityIndex := none
    entityVisibleOverrides := []
    selectedLayers := []
    layerStyles := []
    copyState := .idle
    jsonDraftParse := none
    jsonState := .idle
    commandLine := ""
    commandState := .idle }

/-- `deleteSelectedPoint` lifted to the editor state. -/
def deleteSelectedPointSt (st : EditorState) : EditorState :=
  let r := deleteSelectedPoint st.polylineItems st.selected
  { st with polylineItems := r.1, selected := r.2 }

/-- Bump `acc` for one layer occurrence, keeping first-occurrence
order (the `Map` of `polylineLayerCounts`). -/
def bumpLayer : List (String × ℕ) → String → List (String × ℕ)
  | [], l => [(l, 1)]
  | (k, n) :: rest, l =>
      if k = l then (k, n + 1) :: rest else (k, n) :: bumpLayer rest l

/-- Stable descending insertion by count (the stable
`sort((a, b) => b[1] - a[1])`). -/
def insDesc (x : String × ℕ) : List (String × ℕ) → List (String × ℕ)
  | [] => [x]
  | y :: ys => if y.2 < x.2 then x :: y :: ys else y :: insDesc x ys

/-- Model of `polylineLayerCounts` (src/unnamed/part_001:721):
per-layer counts, stably sorted by count descending, top 200. -/
def polylineLayerCounts (items : List PolylineItem) : List (String × ℕ) :=
  ((items.foldl (fun acc it => bumpLayer acc it.layer) []).foldl
    (fun acc x => insDesc x acc) []).take 200

/-- Model of `ensureLayerStyle` (src/unnamed/part_001:739) restricted
to its effect on the style map (object insertion appends a new key). -/
def ensureStylesFor (styles : List (String × LayerStyle)) (layer : String) :
    List (String × LayerStyle) :=
  let l := normalizeLayer (.str layer)
  if (styles.find? (fun kv => kv.1 = l)).isSome then styles
  else styles ++ [(l, defaultLayerStyle)]

/-- Model of `initLayerStateFromItems` (src/unnamed/part_001:879). -/
def initLayerStateFromItems (force : Bool) (st : EditorState) : EditorState :=
  let layers := (polylineLayerCounts st.polylineItems).map (fun kv => kv.1)
  let styles := layers.foldl ensureStylesFor st.layerStyles
  let sel := if force ∧ layers ≠ [] ∧ st.selectedLayers = []
    then layers else st.selectedLayers
  { st with layerStyles := styles, selectedLayers := sel }

/-- The `layerFilterSet.size` of the source: number of distinct
selected layers. -/
def layerFilterSize (selLayers : List String) : ℕ :=
  selLayers.eraseDups.length

/-- All points of the currently visible items (the accumulation loop of
`fitToContent`). -/
def allVisiblePts (st : EditorState) : List JPt :=
  (visibleItemsOf st.polylineItems st.selectedLayers).foldr
    (fun it acc => it.points ++ acc) []

/-- The contents-based arm of `fitToContent`. -/
def fitToContentRest (vw vh : ℚ) (st : EditorState) : EditorState :=
  let pts := allVisiblePts st
  if pts = [] then
    { st with viewBounds := ⟨0, 0, 100, 100⟩ }
  else
    { st with viewBounds :=
        setViewToContentBounds vw vh (bboxFold pts) (.fin (mkRat 1 20)) st.viewBounds }

/-- Model of `fitToContent` (src/unnamed/part_001:977). -/
def fitToContent (vw vh : ℚ) (st : EditorState) : EditorState :=
  match st.bboxBounds with
  | some b =>
      if 0 < layerFilterSize st.selectedLayers ∧
          layerFilterSize st.selectedLayers = (polylineLayerCounts st.polylineItems).length then
        { st with viewBounds :=
            setViewToContentBounds vw vh b.toJ (.fin (mkRat 1 20)) st.viewBounds }
      else fitToContentRest vw vh st
  | none => fitToContentRest vw vh st

/-- JavaScript object property write `o[k] = v`: overwrite in place if
the key exists, otherwise append. -/
def objSet {α : Type} (fs : List (String × α)) (k : String) (v : α) :
    List (String × α) :=
  match fs with
  | [] => [(k, v)]
  | (k0, v0) :: rest =>
      if k0 = k then (k0, v) :: rest else (k0, v0) :: objSet rest k v

/-- `Object.entries` of the `layers` value: field list of an object,
index-keyed entries of an array, nothing otherwise. -/
def entriesOf (v : JsVal) : List (String × JsVal) :=
  match v with
  | .obj fs => fs
  | .arr l => (l.enum.map (fun xi => (toString xi.1, xi.2)))
  | _ => []

/-- The per-entry processing of the layer configuration block of
`applyJsonDraft` (src/unnamed/part_001:1584-1599). -/
def applyLayerEntries (entries : List (String × JsVal)) :
    List (String × LayerStyle) × List String :=
  entries.foldl
    (fun acc kv =>
      let layer := normalizeLayer (.str kv.1)
      let visible := if kv.2.isRec
        then (if (kv.2.getF "visible").isNullish then true else (kv.2.getF "visible").truthy)
        else true
      (objSet acc.1 layer (normalizeLayerStyle kv.2),
       if visible then acc.2 ++ [layer] else acc.2))
    ([], [])

/-- Model of `exportJson` read from the current state (the string is
modelled by its parsed value, see `exportDocVal`). -/
def exportDocOf (st : EditorState) : JsVal :=
  exportDocVal st.polylineItems st.layerStyles st.selectedLayers

/-- Model of `refreshJsonDraft` (src/unnamed/part_001:1564). -/
def refreshJsonDraft (st : EditorState) : EditorState :=
  { st with jsonDraftParse := some (exportDocOf st), jsonState := .idle }

/-- Model of `applyJsonDraft` (src/unnamed/part_001:1569).  The
`try`/`catch` is modelled by explicit failure returns; every mutation
the source performs before a throw is preserved (there are none except
the id-counter threading of `normalizePolylines`). -/
def applyJsonDraft (st : EditorState) : EditorState :=
  match st.jsonDraftParse with
  | none => { st with jsonState := .fail }
  | some v =>
      let r := normalizePolylines v st.polylineIdSeq
      if r.1.isEmpty then { st with jsonState := .fail, polylineIdSeq := r.2 }
      else
        let st1 := { st with
          polylineItems := r.1
          polylineIdSeq := r.2
          bboxBounds := none
          selected := none
          selectedItemId := none
          selectedEntityIndex := none
          layerStyles := []
          selectedLayers := [] }
        let layersV := v.getF "layers"
        let hasLayerConfig := layersV.isRec
        let st2 :=
          if hasLayerConfig then
            let r2 := applyLayerEntries (entriesOf layersV)
            { st1 with layerStyles := r2.1, selectedLayers := r2.2 }
          else st1
        { initLayerStateFromItems (¬hasLayerConfig) st2 with jsonState := .ok }

/-- The synchronous part of `copyJson` as far as the modelled state is
concerned (the clipboard write and the status continuation are
asynchronous and outside the model). -/
def copyJsonSync (st : EditorState) : EditorState :=
  if (visibleItemsOf st.polylineItems st.selectedLayers).isEmpty then st
  else { st with copyState := .idle }

/-- The command-line tokenization `raw.trim().split(/\s+/)
.filter(Boolean)`. -/
def cmdTokens (s : String) : List String :=
  (splitWsAux s.data []).filter (fun t => t ≠ "")

/-- The `parts[i]` argument of `runCommand` as a value for `Number`:
the token string, or `undefined` past the end. -/
def argVal (parts : List String) (i : ℕ) : JsVal :=
  match parts[i]? with
  | some s => .str s
  | none => (.undef)

/-- The `selectedItemId.value ?? selected.value?.id ?? null` target
resolution of `move`/`scale`/`rotate`. -/
def targetIdOf (st : EditorState) : Option String :=
  match st.selectedItemId with
  | some id => some id
  | none => st.selected.map (fun s => s.1)

/-- The point map of the `move` command. -/
def movePointsBy (dx dy : JsNum) (it : PolylineItem) : PolylineItem :=
  { it with points := it.points.map (fun p => (JsNum.add p.1 dx, JsNum.add p.2 dy)) }

/-- The bounding-box centre `(cx, cy)` used by `scale` and `rotate`. -/
def bboxCenter (pts : List JPt) : JPt :=
  let b := bboxFold pts
  (JsNum.div (JsNum.add b.minX b.maxX) (.fin 2),
   JsNum.div (JsNum.add b.minY b.maxY) (.fin 2))

/-- The point map of the `scale` command. -/
def scalePointsBy (sx sy : JsNum) (it : PolylineItem) : PolylineItem :=
  let c := bboxCenter it.points
  { it with points := it.points.map (fun p =>
      (JsNum.add c.1 (JsNum.mul (JsNum.sub p.1 c.1) sx),
       JsNum.add c.2 (JsNum.mul (JsNum.sub p.2 c.2) sy))) }

/-- The point map of the `rotate` command, with the values of
`Math.cos(rad)` and `Math.sin(rad)` passed in as `c` and `s`. -/
def rotatePointsBy (c s : JsNum) (it : PolylineItem) : PolylineItem :=
  let ctr := bboxCenter it.points
  { it with points := it.points.map (fun p =>
      let dx := JsNum.sub p.1 ctr.1
      let dy := JsNum.sub p.2 ctr.2
      (JsNum.add ctr.1 (JsNum.sub (JsNum.mul dx c) (JsNum.mul dy s)),
       JsNum.add ctr.2 (JsNum.add (JsNum.mul dy c) (JsNum.mul dx s)))) }

/-- The body of `runCommand` (src/unnamed/part_001:1644) after
tokenization, dispatching on the lowercased verb.  The `try`/`catch`
is modelled by explicit `.fail` returns; the incoming state has
already had `commandState` set to `idle` (the assignment at the top of
the source function).  `vw`, `vh` are the rendering surface size seen
by `fit`; `rc`, `rs` are the values `Math.cos(rad)`/`Math.sin(rad)`
computed by the `rotate` branch for its parsed angle. -/
def runVerb (cmd : String) (parts : List String) (vw vh : ℚ) (rc rs : ℚ)
    (st : EditorState) : EditorState :=
  if cmd = "clear" then { clearAll st with commandState := .ok }
  else if cmd = "delete" then { deleteSelectedPointSt st with commandState := .ok }
  else if cmd = "copy" then copyJsonSync st
  else if cmd = "export" then { st with commandState := .ok }
  else if cmd = "refresh-json" then { refreshJsonDraft st with commandState := .ok }
  else if cmd = "apply-json" then
    let st2 := applyJsonDraft st
    { st2 with commandState := if st2.jsonState = .fail then .fail else .ok }
  else if cmd = "fit" then { fitToContent vw vh st with commandState := .ok }
  else if cmd = "move" then
    match targetIdOf st with
    | none => { st with commandState := .fail }
    | some id =>
        let dx := toNumber (argVal parts 1)
        let dy := toNumber (argVal parts 2)
        if ¬dx.isFin ∨ ¬dy.isFin then { st with commandState := .fail }
        else match findItemById st.polylineItems id with
          | none => { st with commandState := .fail }
          | some _ =>
              { st with
                polylineItems := updateFirstById st.polylineItems id (movePointsBy dx dy)
                commandState := .ok }
  else if cmd = "scale" then
    match targetIdOf st with
    | none => { st with commandState := .fail }
    | some id =>
        let sx := toNumber (argVal parts 1)
        let sy := if 3 ≤ parts.length then toNumber (argVal parts 2) else sx
        if ¬sx.isFin ∨ ¬sy.isFin ∨ sx = .fin 0 ∨ sy = .fin 0 then
          { st with commandState := .fail }
        else match findItemById st.polylineItems id with
          | none => { st with commandState := .fail }
          | some _ =>
              { st with
                polylineItems := updateFirstById st.polylineItems id (scalePointsBy sx sy)
                commandState := .ok }
  else if cmd = "rotate" then
    match targetIdOf st with
    | none => { st with commandState := .fail }
    | some id =>
        let deg := toNumber (argVal parts 1)
        if ¬deg.isFin then { st with commandState := .fail }
        else match findItemById st.polylineItems id with
          | none => { st with commandState := .fail }
          | some _ =>
              { st with
                polylineItems :=
                  updateFirstById st.polylineItems id (rotatePointsBy (.fin rc) (.fin rs))
                commandState := .ok }
  else if cmd = "" then st
  else { st with commandState := .fail }

/-- Model of `runCommand`: tokenizes the command line, resets the
status to `idle` and dispatches. -/
def runCommand (vw vh : ℚ) (rc rs : ℚ) (st : EditorState) : EditorState :=
  let parts := cmdTokens st.commandLine
  runVerb (jsToLower (parts.headD "")) parts vw vh rc rs
    { st with commandState := .idle }


/-- Well-formedness of a stored line override, as guaranteed by both
normalizer paths: at least one field present, a stored color is a
fixed point of `normalizeColorHex` (and nonempty), a stored width is
at least the clamp minimum 0.1. -/
def wfLineOverride (o : LineOverride) : Bool :=
  (o.type.isSome || o.color.isSome || o.width.isSome) &&
  (match o.color with
   | some c => decide (c ≠ "") && decide (normalizeColorHex (.str c) "#000000" = c)
   | none => true) &&
  (match o.width with
   | some w => decide (mkRat 1 10 ≤ w)
   | none => true)

/-- Well-formedness of a Polyline Item, as established by the
normalizers: nonblank trimmed id, trimmed nonempty layer and type, at
least 2 finite points, and a well-formed override if present. -/
def wfItem (it : PolylineItem) : Bool :=
  decide (jsTrim it.id ≠ "") &&
  decide (jsTrim it.layer = it.layer) && decide (it.layer ≠ "") &&
  decide (jsTrim it.type = it.type) && decide (it.type ≠ "") &&
  decide (2 ≤ it.points.length) &&
  it.points.all (fun p => p.1.isFin && p.2.isFin) &&
  (match it.lineOverride with
   | some o => wfLineOverride o
   | none => true)

/-- Dropping the unserialized `source` field. -/
def clearSource (it : PolylineItem) : PolylineItem :=
  { it with source := none }

/-- A 2-point item used by concrete scenarios. -/
def itemC9 : PolylineItem :=
  ⟨"a", "0", "POLYLINE", [fp 0 0, fp 10 0], true, none, none, none⟩

/-- The editor state of the `rotate 90` scenario. -/
def stC9 : EditorState :=
  { polylineItems := [itemC9], bboxBounds := none, viewBounds := ⟨0, 0, 100, 100⟩,
    selected := none, selectedItemId := some "a", selectedEntityIndex := none,
    entityVisibleOverrides := [], selectedLayers := ["0"],
    layerStyles := [("0", defaultLayerStyle)], parsedDxf := none, fileName := none,
    copyState := .idle, jsonDraftParse := none, jsonState := .idle,
    commandLine := "rotate 90", commandState := .idle, polylineIdSeq := 0 }

/-- A state whose bbox is the degenerate zero-area rectangle at the
origin, with all layers selected (so `fitToContent` takes its bbox
arm). -/
def stC6 : EditorState :=
  { polylineItems := [⟨"a", "0", "POLYLINE", [fp 0 0, fp 10 0], true, none, none, none⟩],
    bboxBounds := some ⟨0, 0, 0, 0⟩, viewBounds := ⟨0, 0, 50, 50⟩,
    selected := none, selectedItemId := none, selectedEntityIndex := none,
    entityVisibleOverrides := [], selectedLayers := ["0"],
    layerStyles := [("0", defaultLayerStyle)], parsedDxf := none, fileName := none,
    copyState := .idle, jsonDraftParse := none, jsonState := .idle,
    commandLine := "fit", commandState := .idle, polylineIdSeq := 0 }

/-- A state with an unknown command verb on the command line. -/
def stC7 : EditorState :=
  { polylineItems := [itemC9], bboxBounds := none, viewBounds := ⟨0, 0, 100, 100⟩,
    selected := some ("a", 0), selectedItemId := some "a", selectedEntityIndex := none,
    entityVisibleOverrides := [], selectedLayers := ["0"],
    layerStyles := [("0", defaultLayerStyle)], parsedDxf := none, fileName := none,
    copyState := .idle, jsonDraftParse := none, jsonState := .ok,
    commandLine := "frobnicate 1 2", commandState := .idle, polylineIdSeq := 5 }

/-!  Claim theorems.  -/

/-- C1: the claim fails in the code.  A point supplied as an `{x,y}`
record is accepted by `normalizePoint` whenever both fields are of
number type, with no finiteness check, so a NaN coordinate flows into
the accepted point list of `normalizePolylinePointsLike`: the element
is not dropped and the produced Point has a NaN coordinate.  (The
`[x,y]` branch, by contrast, checks `Number.isFinite`.)  This theorem
evaluates the code at the failing input. -/
theorem claim_C1_record_point_nonfinite :
    normalizePoint (.obj [("x", .num .nan), ("y", .num (.fin 0))]) =
      some (.nan, .fin 0) ∧
    normalizePolylinePointsLike
      (.arr [.obj [("x", .num .nan), ("y", .num (.fin 0))],
             .arr [.num (.fin 0), .num (.fin 0)],
             .arr [.num (.fin 1), .num (.fin 1)]]) =
      some [(.nan, .fin 0), (.fin 0, .fin 0), (.fin 1, .fin 1)] ∧
    JsNum.nan.isFin = false := by
  refine ⟨rfl, rfl, rfl⟩

/-- C10, counterexample to the claim as stated: with the sampling step
2.5 on a 3-point polyline the loop reads `pl[2.5] = undefined` and the
destructuring throws, so nothing is emitted at all — in particular the
last point is not the final emitted coordinate. -/
theorem claim_C10_counterexample :
    mkRat 5 2 = 5/2 ∧
    toSvgPts [fp 0 0, fp 1 1, fp 2 2] (.fin (mkRat 5 2)) = none ∧
    ¬∃ out, toSvgPts [fp 0 0, fp 1 1, fp 2 2] (.fin (mkRat 5 2)) = some out ∧
      out.getLast? = some (negY (fp 2 2)) := by
  have h : toSvgPts [fp 0 0, fp 1 1, fp 2 2] (.fin (mkRat 5 2)) = none := by
    with_unfolding_all rfl
  refine ⟨by norm_num [Rat.mkRat_eq_div], h, ?_⟩
  rintro ⟨out, hout, -⟩
  rw [h] at hout
  exact Option.noConfusion hout

/-- One unfolding step of the sampling loop. -/
theorem svgSampleLoop_succ (pl : List JPt) (step : ℚ) (k fuel : ℕ) :
    svgSampleLoop pl step k (fuel + 1) =
      (if (pl.length : ℚ) ≤ step * k then some []
       else if (step * (k : ℚ)).den = 1 then
        (svgSampleLoop pl step (k + 1) fuel).map
          (fun rest => negY (pl.getD (step * (k : ℚ)).num.toNat dfltPt) :: rest)
       else none) := rfl

/-- The sampling loop terminates with a value for every integer step
at least 2, given fuel covering the remaining length. -/
theorem svgSampleLoop_total (pl : List JPt) (n : ℕ) (hn : 2 ≤ n) :
    ∀ fuel k, pl.length ≤ k + fuel →
      ∃ out, svgSampleLoop pl (n : ℚ) k (fuel + 1) = some out := by
  intro fuel
  induction fuel with
  | zero =>
      intro k hk
      refine ⟨[], ?_⟩
      have hpos : (pl.length : ℚ) ≤ (n : ℚ) * k := by
        have h1 : (pl.length : ℕ) ≤ n * k := by
          calc pl.length ≤ k := by omega
            _ ≤ n * k := Nat.le_mul_of_pos_left k (by omega)
        exact_mod_cast h1
      rw [svgSampleLoop_succ, if_pos hpos]
  | succ fuel ih =>
      intro k hk
      by_cases hstop : (pl.length : ℚ) ≤ (n : ℚ) * k
      · exact ⟨[], by rw [svgSampleLoop_succ, if_pos hstop]⟩
      · have hden : ((n : ℚ) * k).den = 1 := by
          have h2 : ((n : ℚ) * (k : ℚ)) = ((n * k : ℕ) : ℚ) := by push_cast; ring
          rw [h2]
          exact Rat.den_natCast _
        obtain ⟨out, hout⟩ := ih (k + 1) (by omega)
        refine ⟨negY (pl.getD ((n : ℚ) * k).num.toNat dfltPt) :: out, ?_⟩
        rw [svgSampleLoop_succ, if_neg hstop, if_pos hden, hout]
        rfl

/-- C10, amended: `toSvgPoints` emits every point in order (with the
y sign flip) when the step is non-finite or at most 1; and for every
integer step at least 2 — the only steps greater than 1 the renderer
produces — it emits a list whose final coordinate is the last point.
Fractional steps greater than 1 are excluded: they throw (see the
counterexample). -/
theorem claim_C10_last_vertex_amended :
    (∀ (pl : List JPt) (step : JsNum),
      (¬step.isFin ∨ JsNum.le step (.fin 1)) → toSvgPts pl step = some (pl.map negY)) ∧
    (∀ (pl : List JPt) (n : ℕ), 2 ≤ n → 2 ≤ pl.length →
      ∃ out, toSvgPts pl (.fin (n : ℚ)) = some out ∧
        out.getLast? = some (negY (pl.getD (pl.length - 1) dfltPt))) := by
  constructor
  · intro pl step h
    rw [toSvgPts, if_pos h]
  · intro pl n hn hpl
    have hle : JsNum.le (.fin (n : ℚ)) (.fin 1) = false := by
      simp only [JsNum.le, decide_eq_false_iff_not, not_le]
      exact_mod_cast (by omega : (1 : ℕ) < n)
    obtain ⟨smp, hsmp⟩ := svgSampleLoop_total pl n hn pl.length 0 (by omega)
    refine ⟨if smp.getLast? = some (negY (pl.getD (pl.length - 1) dfltPt)) then smp
        else smp ++ [negY (pl.getD (pl.length - 1) dfltPt)], ?_, ?_⟩
    · rw [toSvgPts, if_neg (by simp [JsNum.isFin, hle])]
      have hq0 : (JsNum.fin (n : ℚ)).q0 = (n : ℚ) := rfl
      rw [hq0, hsmp]
      show some (if 2 ≤ pl.length then
          (if smp.getLast? = some (negY (pl.getD (pl.length - 1) dfltPt)) then smp
           else smp ++ [negY (pl.getD (pl.length - 1) dfltPt)])
        else smp) = _
      rw [if_pos hpl]
    · by_cases hl : smp.getLast? = some (negY (pl.getD (pl.length - 1) dfltPt))
      · rw [if_pos hl]; exact hl
      · rw [if_neg hl]
        exact List.getLast?_concat _

/-- Witness for the amended C10 theorem at concrete inputs. -/
theorem claim_C10_witness :
    toSvgPts [fp 0 0, fp 1 1, fp 2 2] (.fin 1) =
      some [negY (fp 0 0), negY (fp 1 1), negY (fp 2 2)] ∧
    ∃ out, toSvgPts [fp 0 0, fp 1 1, fp 2 2] (.fin ((2 : ℕ) : ℚ)) = some out ∧
      out.getLast? = some (negY (([fp 0 0, fp 1 1, fp 2 2] : List JPt).getD 2 dfltPt)) := by
  constructor
  · exact claim_C10_last_vertex_amended.1 [fp 0 0, fp 1 1, fp 2 2] (.fin 1)
      (Or.inr (by with_unfolding_all rfl))
  · exact claim_C10_last_vertex_amended.2 [fp 0 0, fp 1 1, fp 2 2] 2
      (by omega) (by decide)

/-- C8, counterexample to the claim as stated: the 4-point polyline
`(0,0),(5,5),(0,0),(0,0)` of length at least 3 ends with a duplicate of
its first point within tolerance, yet the DXF export emits 3 vertices
for it and only 2 for the same polyline with the duplicated closing
point removed first — the re-detection closes the truncated ring again
and drops one more vertex. -/
theorem claim_C8_counterexample :
    ptsClose (fp 0 0) (fp 0 0) = true ∧
    dxfVertexCount [fp 0 0, fp 5 5, fp 0 0, fp 0 0] = 3 ∧
    dxfVertexCount ([fp 0 0, fp 5 5, fp 0 0, fp 0 0] : List JPt).dropLast = 2 := by
  refine ⟨by with_unfolding_all rfl, by with_unfolding_all rfl, by with_unfolding_all rfl⟩

/-- `getD` on `dropLast` agrees with `getD` on the list below the
truncated length. -/
theorem dropLast_getD {α : Type} (l : List α) (i : ℕ) (d : α) (h : i < l.length - 1) :
    l.dropLast.getD i d = l.getD i d := by
  have h1 : i < l.length := by omega
  have h2 : i < l.dropLast.length := by
    rw [List.length_dropLast]; exact h
  rw [List.getD_eq_getElem l d h1, List.getD_eq_getElem _ d h2]
  exact List.getElem_dropLast l i h2

/-- C8, amended: the closed-ring vertex count is stable under removing
the duplicated closing point, provided the point before the duplicate
is not itself within tolerance of the first point (or the polyline has
exactly 3 points); the counterexample shows the extra proviso is
needed.  Both emitted counts are at least 2, so both polylines are
actually emitted by `toDxfString`. -/
theorem claim_C8_closed_ring_amended (pl : List JPt)
    (hlen : 3 ≤ pl.length)
    (hclose : ptsClose (pl.getD 0 dfltPt) (pl.getD (pl.length - 1) dfltPt) = true)
    (hside : pl.length = 3 ∨
      ptsClose (pl.getD 0 dfltPt) (pl.getD (pl.length - 2) dfltPt) = false) :
    dxfVertexCount pl = dxfVertexCount pl.dropLast ∧ 2 ≤ dxfVertexCount pl := by
  have hflag : dxfVertexCount pl = pl.length - 1 := by
    rw [dxfVertexCount, polylineClosedFlag, if_neg (by omega)]
    simp only [List.getD_eq_getElem?_getD] at hclose
    simp [hclose, List.length_dropLast]
  have hlen2 : pl.dropLast.length = pl.length - 1 := List.length_dropLast pl
  constructor
  · rcases hside with h3 | hfar
    · have : dxfVertexCount pl.dropLast = pl.dropLast.length := by
        rw [dxfVertexCount, polylineClosedFlag, if_pos (by omega)]
      rw [hflag, this, hlen2]
    · by_cases hsmall : pl.dropLast.length < 3
      · have : dxfVertexCount pl.dropLast = pl.dropLast.length := by
          rw [dxfVertexCount, polylineClosedFlag, if_pos hsmall]
        rw [hflag, this, hlen2]
      · have hfirst : pl.dropLast.getD 0 dfltPt = pl.getD 0 dfltPt :=
          dropLast_getD pl 0 dfltPt (by omega)
        have hlast : pl.dropLast.getD (pl.dropLast.length - 1) dfltPt =
            pl.getD (pl.length - 2) dfltPt := by
          rw [hlen2]
          exact dropLast_getD pl (pl.length - 2) dfltPt (by omega)
        have : dxfVertexCount pl.dropLast = pl.dropLast.length := by
          rw [dxfVertexCount, polylineClosedFlag, if_neg (by omega)]
          simp only [List.getD_eq_getElem?_getD] at hfirst hlast hfar
          rw [hlen2] at hlast
          simp [hfirst, hlast, hfar]
        rw [hflag, this, hlen2]
  · omega

/-- Witness for the amended C8 theorem: an honest closed square ring
keeps its 4 emitted vertices when the duplicate is removed first. -/
theorem claim_C8_witness :
    dxfVertexCount [fp 0 0, fp 10 0, fp 10 10, fp 0 10, fp 0 0] =
      dxfVertexCount ([fp 0 0, fp 10 0, fp 10 10, fp 0 10, fp 0 0] : List JPt).dropLast ∧
    2 ≤ dxfVertexCount [fp 0 0, fp 10 0, fp 10 10, fp 0 10, fp 0 0] :=
  claim_C8_closed_ring_amended [fp 0 0, fp 10 0, fp 10 10, fp 0 10, fp 0 0]
    (by decide) (by with_unfolding_all rfl)
    (Or.inr (by with_unfolding_all rfl))

/-- Accepted point lists always have at least 2 points. -/
theorem pointsLike_min_len {pl : JsVal} {pts : List JPt}
    (h : normalizePolylinePointsLike pl = some pts) : 2 ≤ pts.length := by
  rcases pl with _ | _ | b | n | s | l | fs <;>
    simp only [normalizePolylinePointsLike] at h
  case arr =>
    split at h
    · cases h; assumption
    · cases h
  all_goals
    (generalize hv : JsVal.getF _ "vertices" = w at h
     rcases w with _ | _ | b2 | n2 | s2 | l2 | fs2 <;> simp only at h
     any_goals cases h
     split at h
     · cases h; assumption
     · cases h)

/-- Every item produced by `normalizePolylineItemLike` has at least 2
points. -/
theorem itemLike_min_len {pl : JsVal} {seq seq2 : ℕ} {it : PolylineItem}
    (h : normalizePolylineItemLike pl seq = (some it, seq2)) :
    2 ≤ it.points.length := by
  unfold normalizePolylineItemLike at h
  split at h
  · generalize hp : normalizePolylinePointsLike (pl.getF "points") = r at h
    rcases r with _ | pts
    · simp at h
    · simp only at h
      split at h <;>
        (injection h with h1 h2
         injection h1 with h3
         subst h3
         exact pointsLike_min_len hp)
  · generalize hp : normalizePolylinePointsLike pl = r at h
    rcases r with _ | pts
    · simp at h
    · simp only at h
      injection h with h1 h2
      injection h1 with h3
      subst h3
      exact pointsLike_min_len hp

/-- The collection loop only collects items with at least 2 points. -/
theorem normPolyList_min_len : ∀ (l : List JsVal) (seq : ℕ) (it : PolylineItem),
    it ∈ (normPolyList l seq).1 → 2 ≤ it.points.length := by
  intro l
  induction l with
  | nil => intro seq it h; cases h
  | cons pl rest ih =>
      intro seq it h
      rw [normPolyList] at h
      rcases hi : normalizePolylineItemLike pl seq with ⟨oit, seq2⟩
      rw [hi] at h
      rcases oit with _ | it0
      · exact ih seq2 it h
      · dsimp only at h
        rcases ht : normPolyList rest seq2 with ⟨tail, seq3⟩
        rw [ht] at h
        dsimp only at h
        rcases List.mem_cons.mp h with rfl | hm
        · exact itemLike_min_len hi
        · have := ih seq2 it
          rw [ht] at this
          exact this hm

/-- C4: the minimum-points invariant.  (1) Normalization rejects any
candidate with fewer than 2 surviving points, so every normalized item
has at least 2.  (2) `deleteSelectedPoint` on an item with exactly 2
points deletes the whole item and clears the point selection.  (3) On
an item with 3 or more points it removes the point and re-selects
index `max(0, index-1)` (truncated subtraction on naturals).  (4) The
invariant is preserved by `deleteSelectedPoint`. -/
theorem claim_C4_min_points_invariant :
    (∀ (v : JsVal) (seq : ℕ) (it : PolylineItem),
      it ∈ (normalizePolylines v seq).1 → 2 ≤ it.points.length) ∧
    (∀ (items : List PolylineItem) (id : String) (k i : ℕ) (it : PolylineItem),
      items.findIdx? (fun x => x.id = id) = some i → items[i]? = some it →
      it.points.length = 2 → k < it.points.length →
      deleteSelectedPoint items (some (id, k)) = (items.eraseIdx i, none)) ∧
    (∀ (items : List PolylineItem) (id : String) (k i : ℕ) (it : PolylineItem),
      items.findIdx? (fun x => x.id = id) = some i → items[i]? = some it →
      3 ≤ it.points.length → k < it.points.length →
      deleteSelectedPoint items (some (id, k)) =
        (items.set i { it with points := it.points.eraseIdx k }, some (id, k - 1))) ∧
    (∀ (items : List PolylineItem) (sel : Option Sel),
      (∀ it ∈ items, 2 ≤ it.points.length) →
      ∀ it ∈ (deleteSelectedPoint items sel).1, 2 ≤ it.points.length) := by
  refine ⟨?_, ?_, ?_, ?_⟩
  · intro v seq it h
    unfold normalizePolylines at h
    exact normPolyList_min_len _ _ _ h
  · intro items id k i it hfind hget hlen hk
    simp only [deleteSelectedPoint, hfind, hget]
    rw [if_pos hk, if_pos (by omega)]
  · intro items id k i it hfind hget hlen hk
    simp only [deleteSelectedPoint, hfind, hget]
    rw [if_pos hk, if_neg (by omega)]
  · intro items sel hinv it hmem
    rcases sel with _ | ⟨id, k⟩
    · exact hinv it hmem
    · rcases hfind : items.findIdx? (fun x => x.id = id) with _ | i
      · simp only [deleteSelectedPoint, hfind] at hmem
        exact hinv it hmem
      · rcases hget : items[i]? with _ | it0
        · simp only [deleteSelectedPoint, hfind, hget] at hmem
          exact hinv it hmem
        · simp only [deleteSelectedPoint, hfind, hget] at hmem
          by_cases hk : k < it0.points.length
          · rw [if_pos hk] at hmem
            by_cases h2 : it0.points.length ≤ 2
            · rw [if_pos h2] at hmem
              exact hinv it (List.mem_of_mem_eraseIdx hmem)
            · rw [if_neg h2] at hmem
              rcases List.mem_or_eq_of_mem_set hmem with hm | rfl
              · exact hinv it hm
              · have hlen2 : (it0.points.eraseIdx k).length = it0.points.length - 1 := by
                  rw [List.length_eraseIdx]
                  simp [hk]
                simp only [hlen2]
                omega
          · rw [if_neg hk] at hmem
            exact hinv it hmem

/-- Witness for C4 at concrete inputs: the normalization scenario, the
2-point deletion, a 3-point deletion at index 0, and invariant
preservation on a concrete list. -/
theorem claim_C4_witness :
    (∀ it ∈ (normalizePolylines
        (.arr [.arr [.arr [.num (.fin 0), .num (.fin 0)],
                     .arr [.num (.fin 10), .num (.fin 0)]]]) 0).1,
      2 ≤ it.points.length) ∧
    deleteSelectedPoint [itemC9] (some ("a", 1)) = ([], none) ∧
    deleteSelectedPoint
      [⟨"a", "0", "POLYLINE", [fp 0 0, fp 1 1, fp 2 2], true, none, none, none⟩]
      (some ("a", 0)) =
      ([⟨"a", "0", "POLYLINE", [fp 1 1, fp 2 2], true, none, none, none⟩],
       some ("a", 0)) ∧
    (∀ it ∈ (deleteSelectedPoint [itemC9] (some ("a", 1))).1, 2 ≤ it.points.length) := by
  refine ⟨?_, ?_, ?_, ?_⟩
  · exact fun it h => claim_C4_min_points_invariant.1 _ 0 it h
  · exact claim_C4_min_points_invariant.2.1 [itemC9] "a" 1 0 itemC9
      (by with_unfolding_all rfl) rfl (by with_unfolding_all rfl) (by decide)
  · exact claim_C4_min_points_invariant.2.2.1 _ "a" 0 0
      ⟨"a", "0", "POLYLINE", [fp 0 0, fp 1 1, fp 2 2], true, none, none, none⟩
      (by with_unfolding_all rfl) rfl (by decide) (by decide)
  · exact fun it h => claim_C4_min_points_invariant.2.2.2 [itemC9] (some ("a", 1))
      (by intro x hx; rcases List.mem_singleton.mp hx with rfl; decide) it h

/-- C5, counterexample to the claim as stated: double-clicking the
2-point polyline `(0,0)-(10,0)` at the off-stroke model point `(5,3)`
inserts the clicked point `(5,3)` itself — not the perpendicular foot
`(5,0)`, which is the closest point on the nearest segment.  The
projection is used only to pick the segment. -/
theorem claim_C5_counterexample :
    (insertPointOnPolyline [itemC9] none "a" (fp 5 3)).1 =
      [⟨"a", "0", "POLYLINE", [fp 0 0, fp 5 3, fp 10 0], true, none, none, none⟩] ∧
    (insertPointOnPolyline [itemC9] none "a" (fp 5 3)).2 = some ("a", 1) ∧
    segClosest (fp 0 0) (fp 10 0) (fp 5 3) = fp 5 0 ∧
    fp 5 3 ≠ fp 5 0 := by
  refine ⟨by with_unfolding_all rfl, by with_unfolding_all rfl,
    by with_unfolding_all rfl, by decide⟩

/-- The first component of the segment-scan fold is the start index or
one of the visited indices. -/
theorem foldl_fst_mem (d2 : ℕ → JsNum) :
    ∀ (l : List ℕ) (acc : ℕ × JsNum),
      (l.foldl (fun acc i => if JsNum.lt (d2 i) acc.2 then (i, d2 i) else acc) acc).1 = acc.1 ∨
      (l.foldl (fun acc i => if JsNum.lt (d2 i) acc.2 then (i, d2 i) else acc) acc).1 ∈ l := by
  intro l
  induction l with
  | nil => intro acc; exact Or.inl rfl
  | cons i l ih =>
      intro acc
      rw [List.foldl_cons]
      by_cases h : JsNum.lt (d2 i) acc.2 = true
      · rw [if_pos h]
        rcases ih (i, d2 i) with h1 | h1
        · exact Or.inr (h1 ▸ List.mem_cons_self i l)
        · exact Or.inr (List.mem_cons_of_mem i h1)
      · rw [if_neg h]
        rcases ih acc with h1 | h1
        · exact Or.inl h1
        · exact Or.inr (List.mem_cons_of_mem i h1)

/-- The scan keeps the running minimum once the accumulator is finite:
the result is finite, no larger than the start value, records a
visited distance (or is the start), and is a lower bound for every
visited distance. -/
theorem foldl_min_fin (d2 : ℕ → JsNum) :
    ∀ (l : List ℕ) (b0 : ℕ) (q0 : ℚ), (∀ j ∈ l, (d2 j).isFin = true) →
      ∃ b1 q1,
        l.foldl (fun acc i => if JsNum.lt (d2 i) acc.2 then (i, d2 i) else acc)
          (b0, .fin q0) = (b1, .fin q1) ∧
        q1 ≤ q0 ∧ ((b1 = b0 ∧ q1 = q0) ∨ d2 b1 = .fin q1) ∧
        ∀ j ∈ l, JsNum.le (.fin q1) (d2 j) = true := by
  intro l
  induction l with
  | nil =>
      intro b0 q0 _
      exact ⟨b0, q0, rfl, le_refl _, Or.inl ⟨rfl, rfl⟩, by intro j hj; cases hj⟩
  | cons i l ih =>
      intro b0 q0 hfin
      have hif : (d2 i).isFin = true := hfin i (List.mem_cons_self i l)
      obtain ⟨gi, hgi⟩ : ∃ g, d2 i = .fin g := by
        rcases hd : d2 i with g | _ | _ | _
        · exact ⟨g, rfl⟩
        all_goals (rw [hd] at hif; cases hif)
      rw [List.foldl_cons, hgi]
      by_cases hlt : gi < q0
      · rw [if_pos (by simp [JsNum.lt, hlt])]
        obtain ⟨b1, q1, heq, hle, hor, hall⟩ :=
          ih i gi (fun j hj => hfin j (List.mem_cons_of_mem i hj))
        refine ⟨b1, q1, heq, le_trans hle (le_of_lt hlt), ?_, ?_⟩
        · rcases hor with ⟨rfl, rfl⟩ | hr
          · exact Or.inr hgi
          · exact Or.inr hr
        · intro j hj
          rcases List.mem_cons.mp hj with rfl | hm
          · rw [hgi]
            simp [JsNum.le, hle]
          · exact hall j hm
      · rw [if_neg (by simp [JsNum.lt, hlt])]
        obtain ⟨b1, q1, heq, hle, hor, hall⟩ :=
          ih b0 q0 (fun j hj => hfin j (List.mem_cons_of_mem i hj))
        refine ⟨b1, q1, heq, hle, hor, ?_⟩
        intro j hj
        rcases List.mem_cons.mp hj with rfl | hm
        · rw [hgi]
          simp only [JsNum.le, decide_eq_true_eq]
          exact le_trans hle (le_of_not_lt hlt)
        · exact hall j hm

/-- The chosen segment index is in range. -/
theorem bestSegOf_lt (pl : List JPt) (p : JPt) (hpl : 2 ≤ pl.length) :
    bestSegOf pl p < pl.length - 1 := by
  rw [bestSegOf]
  rcases foldl_fst_mem
      (fun i => segDist2 (pl.getD i dfltPt) (pl.getD (i + 1) dfltPt) p)
      (List.range (pl.length - 1)) (0, JsNum.pinf) with h | h
  · rw [h]; omega
  · exact List.mem_range.mp h

/-- The chosen segment minimizes the clamped-projection distance among
all segments, whenever the scanned distances are finite. -/
theorem bestSegOf_min (pl : List JPt) (p : JPt) (hpl : 2 ≤ pl.length)
    (hfin : ∀ i < pl.length - 1,
      (segDist2 (pl.getD i dfltPt) (pl.getD (i + 1) dfltPt) p).isFin = true) :
    ∀ j < pl.length - 1,
      JsNum.le (segDist2 (pl.getD (bestSegOf pl p) dfltPt)
                 (pl.getD (bestSegOf pl p + 1) dfltPt) p)
               (segDist2 (pl.getD j dfltPt) (pl.getD (j + 1) dfltPt) p) = true := by
  obtain ⟨m, hm⟩ : ∃ m, pl.length - 1 = m + 1 := ⟨pl.length - 2, by omega⟩
  have h0 : (segDist2 (pl.getD 0 dfltPt) (pl.getD 1 dfltPt) p).isFin = true :=
    hfin 0 (by omega)
  obtain ⟨g0, hg0⟩ : ∃ g, segDist2 (pl.getD 0 dfltPt) (pl.getD 1 dfltPt) p = .fin g := by
    rcases hd : segDist2 (pl.getD 0 dfltPt) (pl.getD 1 dfltPt) p with g | _ | _ | _
    · exact ⟨g, rfl⟩
    all_goals (rw [hd] at h0; cases h0)
  have hrange : List.range (pl.length - 1) = 0 :: (List.range m).map (· + 1) := by
    rw [hm, List.range_succ_eq_map]
  obtain ⟨b1, q1, heq, hle, hor, hall⟩ :=
    foldl_min_fin
      (fun i => segDist2 (pl.getD i dfltPt) (pl.getD (i + 1) dfltPt) p)
      ((List.range m).map (· + 1)) 0 g0
      (by
        intro j hj
        obtain ⟨k, hk, rfl⟩ := List.mem_map.mp hj
        exact hfin (k + 1) (by have := List.mem_range.mp hk; omega))
  have hbest : bestSegOf pl p = b1 := by
    rw [bestSegOf, hrange, List.foldl_cons]
    rw [show (0 : ℕ) + 1 = 1 from rfl, hg0]
    rw [if_pos (by rfl), heq]
  have hdb : segDist2 (pl.getD b1 dfltPt) (pl.getD (b1 + 1) dfltPt) p = .fin q1 := by
    rcases hor with ⟨rfl, rfl⟩ | hr
    · rw [show (0 : ℕ) + 1 = 1 from rfl]
      exact hg0
    · exact hr
  intro j hj
  rw [hbest, hdb]
  rcases Nat.eq_zero_or_pos j with rfl | hjpos
  · rw [show (0 : ℕ) + 1 = 1 from rfl, hg0]
    simp [JsNum.le, hle]
  · exact hall j (List.mem_map.mpr ⟨j - 1, List.mem_range.mpr (by omega), by omega⟩)

/-- `qdiv` agrees with field division on `ℚ`. -/
theorem qdiv_eq (a b : ℚ) : qdiv a b = a / b := by
  unfold qdiv
  rw [Rat.divInt_eq_div]
  rcases eq_or_ne b 0 with rfl | hb
  · simp
  · have h1 : (a.den : ℚ) ≠ 0 := by
      exact_mod_cast a.den_nz
    have h2 : (b.den : ℚ) ≠ 0 := by
      exact_mod_cast b.den_nz
    have h3 : (b.num : ℚ) ≠ 0 := by
      exact_mod_cast Rat.num_ne_zero.mpr hb
    conv_rhs => rw [← Rat.num_div_den a, ← Rat.num_div_den b]
    push_cast
    field_simp

/-- `findIdx?` with a start offset only returns indices at or past the
offset. -/
theorem findIdx?_ge {α : Type} (p : α → Bool) :
    ∀ (l : List α) (k j : ℕ), l.findIdx? p k = some j → k ≤ j := by
  intro l
  induction l with
  | nil => intro k j h; simp [List.findIdx?] at h
  | cons a l ih =>
      intro k j h
      rw [List.findIdx?_cons] at h
      split at h
      · cases h; omega
      · have := ih (k + 1) j h
        omega

/-- The element at the index found by `findIdx?` is the element found
by `find?`. -/
theorem find?_of_findIdx? {α : Type} (p : α → Bool) :
    ∀ (l : List α) (k j : ℕ) (x : α), l.findIdx? p k = some j →
      l[j - k]? = some x → l.find? p = some x := by
  intro l
  induction l with
  | nil => intro k j x h; simp [List.findIdx?] at h
  | cons a l ih =>
      intro k j x h hx
      rw [List.findIdx?_cons] at h
      split at h
      · cases h
        simp only [Nat.sub_self, List.getElem?_cons_zero, Option.some.injEq] at hx
        subst hx
        rw [List.find?_cons_of_pos _ (by assumption)]
      · have hge := findIdx?_ge p l (k + 1) j h
        have hsub : j - k = (j - (k + 1)) + 1 := by omega
        rw [hsub, List.getElem?_cons_succ] at hx
        rw [List.find?_cons_of_neg _ (by simp_all)]
        exact ih (k + 1) j x h hx

/-- `insertIdx` as take-append-drop, for indices within the list. -/
theorem insertIdx_take_drop {α : Type} (a : α) :
    ∀ (n : ℕ) (l : List α), n ≤ l.length →
      l.insertIdx n a = l.take n ++ a :: l.drop n := by
  intro n
  induction n with
  | zero => intro l _; simp [List.insertIdx_zero]
  | succ n ih =>
      intro l h
      cases l with
      | nil => simp at h
      | cons b l =>
          rw [List.insertIdx_succ_cons, ih l (by simpa using h)]
          simp

/-- Clicking exactly at the segment midpoint projects to itself: the
clamped parameter is 1/2 on a proper segment, and on a degenerate
segment both endpoints and the midpoint coincide. -/
theorem segClosest_mid (ax ay bx bz : ℚ) :
    segClosest (fp ax ay) (fp bx bz) (fp ((ax + bx) / 2) ((ay + bz) / 2)) =
      fp ((ax + bx) / 2) ((ay + bz) / 2) := by
  unfold segClosest fp
  simp only [JsNum.sub, JsNum.neg, JsNum.add, JsNum.mul]
  by_cases hL : (bx + -ax) * (bx + -ax) + (bz + -ay) * (bz + -ay) = 0
  · rw [if_pos (by rw [hL])]
    have hbx : bx = ax := by nlinarith [sq_nonneg (bx + -ax), sq_nonneg (bz + -ay)]
    have hbz : bz = ay := by nlinarith [sq_nonneg (bx + -ax), sq_nonneg (bz + -ay)]
    subst hbx hbz
    simp only [JsNum.mul, JsNum.add, Prod.mk.injEq, JsNum.fin.injEq]
    constructor <;> ring
  · rw [if_neg (by simpa using hL)]
    simp only [JsNum.div]
    rw [if_neg hL]
    have hdot : ((ax + bx) / 2 + -ax) * (bx + -ax) + ((ay + bz) / 2 + -ay) * (bz + -ay) =
        ((bx + -ax) * (bx + -ax) + (bz + -ay) * (bz + -ay)) / 2 := by ring
    have ht : qdiv (((ax + bx) / 2 + -ax) * (bx + -ax) + ((ay + bz) / 2 + -ay) * (bz + -ay))
        ((bx + -ax) * (bx + -ax) + (bz + -ay) * (bz + -ay)) = 1 / 2 := by
      rw [qdiv_eq, hdot]
      field_simp
      ring
    rw [ht]
    have hmin : JsNum.jmin (.fin 1) (.fin (1 / 2)) = .fin (1 / 2) := by
      simp only [JsNum.jmin, JsNum.lt]
      norm_num
    have hmax : JsNum.jmax (.fin 0) (.fin (1 / 2)) = .fin (1 / 2) := by
      simp only [JsNum.jmax, JsNum.lt]
      norm_num
    rw [hmin, hmax]
    simp only [JsNum.mul, JsNum.add, Prod.mk.injEq, JsNum.fin.injEq]
    constructor <;> ring

/-- On a 2-point polyline the scan always selects segment 0. -/
theorem bestSegOf_pair (a b p : JPt) : bestSegOf [a, b] p = 0 := by
  rw [bestSegOf]
  have hlen : ([a, b] : List JPt).length - 1 = 1 := rfl
  rw [hlen, show List.range 1 = [0] from rfl, List.foldl_cons, List.foldl_nil]
  split <;> rfl

/-- C5, amended.  (1) Double-click insertion finds the nearest segment
by clamped perpendicular projection, but splices in the clicked model
point itself (not its projection onto the segment) immediately after
the segment's start index, and selects the new point.  (2) The chosen
segment minimizes the clamped-projection distance among all
consecutive pairs.  (3) Clicking exactly at the midpoint of a straight
2-point polyline (the point at parameter t = 0.5, which is its own
projection) therefore inserts exactly the segment midpoint at
index 1. -/
theorem claim_C5_insert_amended :
    (∀ (items : List PolylineItem) (sel : Option Sel) (id : String) (p : JPt)
      (i : ℕ) (it : PolylineItem),
      items.findIdx? (fun x => x.id = id) = some i → items[i]? = some it →
      2 ≤ it.points.length →
      insertPointOnPolyline items sel id p =
        (items.set i { it with points := (it.points.take (bestSegOf it.points p + 1) ++ p :: it.points.drop (bestSegOf it.points p + 1)) },
         some (id, bestSegOf it.points p + 1))) ∧
    (∀ (pl : List JPt) (p : JPt), 2 ≤ pl.length →
      (∀ i < pl.length - 1,
        (segDist2 (pl.getD i dfltPt) (pl.getD (i + 1) dfltPt) p).isFin = true) →
      ∀ j < pl.length - 1,
        JsNum.le (segDist2 (pl.getD (bestSegOf pl p) dfltPt)
                   (pl.getD (bestSegOf pl p + 1) dfltPt) p)
                 (segDist2 (pl.getD j dfltPt) (pl.getD (j + 1) dfltPt) p) = true) ∧
    (∀ (ax ay bx bz : ℚ) (sel : Option Sel),
      segClosest (fp ax ay) (fp bx bz) (fp ((ax + bx) / 2) ((ay + bz) / 2)) =
        fp ((ax + bx) / 2) ((ay + bz) / 2) ∧
      insertPointOnPolyline
          [⟨"m", "0", "POLYLINE", [fp ax ay, fp bx bz], true, none, none, none⟩]
          sel "m" (fp ((ax + bx) / 2) ((ay + bz) / 2)) =
        ([⟨"m", "0", "POLYLINE",
            [fp ax ay, fp ((ax + bx) / 2) ((ay + bz) / 2), fp bx bz],
            true, none, none, none⟩],
         some ("m", 1))) := by
  have hpart1 : ∀ (items : List PolylineItem) (sel : Option Sel) (id : String) (p : JPt)
      (i : ℕ) (it : PolylineItem),
      items.findIdx? (fun x => x.id = id) = some i → items[i]? = some it →
      2 ≤ it.points.length →
      insertPointOnPolyline items sel id p =
        (items.set i { it with points := (it.points.take (bestSegOf it.points p + 1) ++ p :: it.points.drop (bestSegOf it.points p + 1)) },
         some (id, bestSegOf it.points p + 1)) := by
    intro items sel id p i it hfind hget hlen
    have hfq : findItemById items id = some it := by
      exact find?_of_findIdx? _ items 0 i it hfind (by simpa using hget)
    have hb := bestSegOf_lt it.points p hlen
    simp only [insertPointOnPolyline, hfq]
    rw [if_neg (by omega)]
    simp only [updateFirstById, hfind, hget]
    rw [insertIdx_take_drop p (bestSegOf it.points p + 1) it.points (by omega)]
  refine ⟨hpart1, ?_, ?_⟩
  · exact fun pl p hpl hfin => bestSegOf_min pl p hpl hfin
  · intro ax ay bx bz sel
    refine ⟨segClosest_mid ax ay bx bz, ?_⟩
    have h1 := hpart1
      [⟨"m", "0", "POLYLINE", [fp ax ay, fp bx bz], true, none, none, none⟩]
      sel "m" (fp ((ax + bx) / 2) ((ay + bz) / 2)) 0
      ⟨"m", "0", "POLYLINE", [fp ax ay, fp bx bz], true, none, none, none⟩
      (by rw [List.findIdx?_cons]; simp) rfl (by simp)
    rw [h1]
    rw [bestSegOf_pair]
    simp

/-- Witness for the amended C5 theorem at concrete inputs. -/
theorem claim_C5_witness :
    insertPointOnPolyline [itemC9] none "a" (fp 5 3) =
      ([itemC9].set 0 { itemC9 with points := (itemC9.points.take (bestSegOf itemC9.points (fp 5 3) + 1) ++ fp 5 3 :: itemC9.points.drop (bestSegOf itemC9.points (fp 5 3) + 1)) },
       some ("a", bestSegOf itemC9.points (fp 5 3) + 1)) ∧
    (∀ j < (itemC9.points.length - 1),
      JsNum.le (segDist2 (itemC9.points.getD (bestSegOf itemC9.points (fp 5 3)) dfltPt)
                 (itemC9.points.getD (bestSegOf itemC9.points (fp 5 3) + 1) dfltPt) (fp 5 3))
               (segDist2 (itemC9.points.getD j dfltPt)
                 (itemC9.points.getD (j + 1) dfltPt) (fp 5 3)) = true) ∧
    insertPointOnPolyline
        [⟨"m", "0", "POLYLINE", [fp 0 0, fp 10 0], true, none, none, none⟩]
        none "m" (fp ((0 + 10) / 2) ((0 + 0) / 2)) =
      ([⟨"m", "0", "POLYLINE",
          [fp 0 0, fp ((0 + 10) / 2) ((0 + 0) / 2), fp 10 0],
          true, none, none, none⟩],
       some ("m", 1)) := by
  refine ⟨?_, ?_, ?_⟩
  · exact claim_C5_insert_amended.1 [itemC9] none "a" (fp 5 3) 0 itemC9
      (by with_unfolding_all rfl) rfl (by decide)
  · exact claim_C5_insert_amended.2.1 itemC9.points (fp 5 3) (by decide)
      (by
        intro i hi
        have : i = 0 := by
          have : itemC9.points.length = 2 := by decide
          omega
        subst this
        with_unfolding_all rfl)
  · exact (claim_C5_insert_amended.2.2 0 0 10 0 none).2

/-- Aspect correction never breaks the bounds invariant. -/
theorem aspectAdjust_inv (vw vh : ℚ) (b : QBounds) (hb : vbInv b) :
    vbInv (aspectAdjust vw vh b) := by
  obtain ⟨hx, hy⟩ := hb
  unfold aspectAdjust
  dsimp only
  split_ifs with h1 h2 h3 h4
  · -- vpr < contentR: height grows to w / vpr
    constructor
    · exact hx
    · have hvpr : 0 < qdiv vw vh := h2
      have hw : 0 < b.maxX - b.minX := by linarith
      have hdiv : 0 < qdiv (b.maxX - b.minX) (qdiv vw vh) := by
        rw [qdiv_eq]
        exact div_pos hw hvpr
      dsimp [vbInv]
      have hq : qdiv (qdiv (b.maxX - b.minX) (qdiv vw vh) - (b.maxY - b.minY)) 2 =
          (qdiv (b.maxX - b.minX) (qdiv vw vh) - (b.maxY - b.minY)) / 2 := qdiv_eq _ _
      rw [hq]
      linarith
  · -- contentR < vpr: width grows to h * vpr
    constructor
    · have hvpr : 0 < qdiv vw vh := h2
      have hh : 0 < b.maxY - b.minY := by linarith
      have hmul : 0 < (b.maxY - b.minY) * qdiv vw vh := mul_pos hh hvpr
      dsimp [vbInv]
      have hq : qdiv ((b.maxY - b.minY) * qdiv vw vh - (b.maxX - b.minX)) 2 =
          ((b.maxY - b.minY) * qdiv vw vh - (b.maxX - b.minX)) / 2 := qdiv_eq _ _
      rw [hq]
      linarith
    · exact hy
  · exact ⟨hx, hy⟩
  · exact ⟨hx, hy⟩
  · exact ⟨hx, hy⟩

/-- A fit update either keeps the previous bounds or establishes the
invariant directly; in particular the invariant is preserved. -/
theorem setViewToContentBounds_inv (vw vh : ℚ) (bounds : JBounds) (padR : JsNum)
    (cur : QBounds) (hcur : vbInv cur) :
    vbInv (setViewToContentBounds vw vh bounds padR cur) := by
  unfold setViewToContentBounds
  split
  · dsimp only
    split
    · exact hcur
    · rename_i hfin hwh
      push_neg at hwh
      apply aspectAdjust_inv
      constructor
      · dsimp [vbInv]
        linarith [hwh.1]
      · dsimp [vbInv]
        linarith [hwh.2]
  · exact hcur

/-- A wheel zoom always produces bounds with width and height at
least 1 (the clamp), hence the invariant — for every cursor point and
scale. -/
theorem onWheel_inv (b : QBounds) (px py scale : ℚ) :
    vbInv (onWheel b px py scale) := by
  unfold onWheel vbInv
  dsimp only
  constructor
  · have h1 : (1 : ℚ) ≤ max 1 (min 1000000000 ((b.maxX - b.minX) * scale)) :=
      le_max_left _ _
    linarith
  · have h1 : (1 : ℚ) ≤ max 1 (min 1000000000 ((b.maxY - b.minY) * scale)) :=
      le_max_left _ _
    linarith

/-- A pan preserves width and height, hence the invariant. -/
theorem panBounds_inv (b : QBounds) (dx dy : ℚ) (hb : vbInv b) :
    vbInv (panBounds b dx dy) := by
  obtain ⟨hx, hy⟩ := hb
  unfold panBounds vbInv
  constructor <;> dsimp <;> linarith

/-- C2: every Viewport Bounds state reachable from the initial bounds
by wheel zoom, pan, and fit-to-content satisfies the invariant
`minX < maxX` and `minY < maxY` (all edges are finite by the exact
rational state representation); the fit operation drops any update
that would violate it, keeping the previous bounds. -/
theorem claim_C2_bounds_invariant (vw vh : ℚ) (b : QBounds)
    (h : viewReachable vw vh b) : vbInv b := by
  induction h with
  | refl =>
      constructor <;> norm_num [initViewBounds]
  | tail hsteps hstep ih =>
      cases hstep with
      | wheel px py scale hs => exact onWheel_inv _ px py scale
      | pan dx dy => exact panBounds_inv _ dx dy ih
      | fit bounds padR => exact setViewToContentBounds_inv vw vh bounds padR _ ih

/-- Witness for C2: a concrete two-step reachable state (a wheel zoom
followed by a pan) satisfies the invariant. -/
theorem claim_C2_witness :
    viewReachable 1 1 (panBounds (onWheel initViewBounds 3 4 2) 5 6) ∧
    vbInv (panBounds (onWheel initViewBounds 3 4 2) 5 6) := by
  have hreach : viewReachable 1 1 (panBounds (onWheel initViewBounds 3 4 2) 5 6) :=
    Relation.ReflTransGen.tail
      (Relation.ReflTransGen.single (ViewStep.wheel initViewBounds 3 4 2 (by norm_num)))
      (ViewStep.pan _ 5 6)
  exact ⟨hreach, claim_C2_bounds_invariant 1 1 _ hreach⟩

/-- C6, counterexample to the claim as stated: fitting to the
degenerate zero-area content box at the origin does not fall back to
the default 100×100 window anchored at the origin; it produces the
10×10 window around the degenerate point that results from padding the
substituted span 100 by the 0.05 pad ratio. -/
theorem claim_C6_counterexample :
    fitToContent 0 0 stC6 = { stC6 with viewBounds := ⟨-5, -5, 5, 5⟩ } ∧
    (⟨-5, -5, 5, 5⟩ : QBounds) ≠ ⟨0, 0, 100, 100⟩ := by
  constructor
  · with_unfolding_all rfl
  · decide

/-- C6, amended.  (1) Content bounds with a non-finite edge leave the
viewport unchanged (the update is dropped; the previous bounds stand).
(2) Zero-area content bounds substitute the fallback span 100, giving
a finite window of half-side `100 · padRatio` centred on the
degenerate point (10×10 for the 0.05 ratio used by `fitToContent`),
not the default window.  (3) The default 100×100 window anchored at
the origin is applied only when fitting with no visible points at all
(and no whole-drawing bbox arm). -/
theorem claim_C6_degenerate_fit_amended :
    (∀ (vw vh : ℚ) (bounds : JBounds) (padR : JsNum) (cur : QBounds),
      ¬(bounds.minX.isFin ∧ bounds.minY.isFin ∧ bounds.maxX.isFin ∧ bounds.maxY.isFin) →
      setViewToContentBounds vw vh bounds padR cur = cur) ∧
    (∀ (x y pr : ℚ) (cur : QBounds), 0 < pr → pr ≤ mkRat 1 2 →
      setViewToContentBounds 0 0 ⟨.fin x, .fin y, .fin x, .fin y⟩ (.fin pr) cur =
        ⟨x - 100 * pr, y - 100 * pr, x + 100 * pr, y + 100 * pr⟩) ∧
    (∀ (vw vh : ℚ) (st : EditorState), st.bboxBounds = none → allVisiblePts st = [] →
      fitToContent vw vh st = { st with viewBounds := ⟨0, 0, 100, 100⟩ }) := by
  refine ⟨?_, ?_, ?_⟩
  · intro vw vh bounds padR cur h
    unfold setViewToContentBounds
    rw [if_neg (by simpa using h)]
  · intro x y pr cur hpr hpr2
    have hpb : paddedBox x y x y (.fin pr) =
        ⟨x - 100 * pr, y - 100 * pr, x + 100 * pr, y + 100 * pr⟩ := by
      unfold paddedBox
      simp only [lt_self_iff_false, if_false, sub_self, max_self, le_refl, if_true,
        min_eq_right hpr2, max_eq_right (le_of_lt hpr)]
    unfold setViewToContentBounds
    rw [if_pos (by exact ⟨rfl, rfl, rfl, rfl⟩)]
    dsimp only
    simp only [JsNum.q0]
    rw [hpb]
    rw [if_neg (by
      dsimp only
      push_neg
      constructor <;> linarith)]
    unfold aspectAdjust
    rw [if_neg (by simp)]
  · intro vw vh st hbb hpts
    unfold fitToContent
    rw [hbb]
    dsimp only
    unfold fitToContentRest
    rw [if_pos hpts, hbb]

/-- Witness for the amended C6 theorem at concrete inputs. -/
theorem claim_C6_witness :
    setViewToContentBounds 1 1 ⟨.nan, .fin 0, .fin 1, .fin 1⟩ (.fin 0) ⟨0, 0, 50, 50⟩ =
      ⟨0, 0, 50, 50⟩ ∧
    setViewToContentBounds 0 0 ⟨.fin 3, .fin 4, .fin 3, .fin 4⟩ (.fin (mkRat 1 20))
        ⟨0, 0, 50, 50⟩ =
      ⟨3 - 100 * mkRat 1 20, 4 - 100 * mkRat 1 20,
       3 + 100 * mkRat 1 20, 4 + 100 * mkRat 1 20⟩ ∧
    fitToContent 0 0 { stC6 with bboxBounds := none, selectedLayers := [] } =
      { stC6 with
          bboxBounds := none
          selectedLayers := []
          viewBounds := ⟨0, 0, 100, 100⟩ } := by
  refine ⟨?_, ?_, ?_⟩
  · exact claim_C6_degenerate_fit_amended.1 1 1 _ _ _ (by simp [JsNum.isFin])
  · exact claim_C6_degenerate_fit_amended.2.1 3 4 (mkRat 1 20) _
      (by norm_num [Rat.mkRat_eq_div]) (by norm_num [Rat.mkRat_eq_div])
  · exact claim_C6_degenerate_fit_amended.2.2 0 0 _ rfl (by with_unfolding_all rfl)

/-- The named fields of an exported polyline record. -/
theorem exported_getF (it : PolylineItem) :
    (exportedPolyVal it).getF "id" = .str it.id ∧
    (exportedPolyVal it).getF "layer" = .str it.layer ∧
    (exportedPolyVal it).getF "type" = .str it.type ∧
    (exportedPolyVal it).getF "points" = .arr (it.points.map pointVal) ∧
    (exportedPolyVal it).getF "visible" = .bool it.visible ∧
    (exportedPolyVal it).getF "entityIndex" =
      (match it.entityIndex with
        | some n => .num (.fin (n : ℚ))
        | none => .undef) ∧
    (exportedPolyVal it).getF "lineOverride" =
      (match it.lineOverride with
        | some o => overrideVal o
        | none => .undef) := by
  rcases it with ⟨iid, il, ity, ipts, ivis, ien, ilo, isrc⟩
  rcases ien with _ | n <;> rcases ilo with _ | o <;>
    simp [exportedPolyVal, JsVal.getF, List.find?]

/-- A finite stored point survives the export/normalize round trip. -/
theorem collectPts_map (pts : List JPt)
    (hfin : pts.all (fun p => p.1.isFin && p.2.isFin) = true) :
    collectPts (pts.map pointVal) = pts := by
  induction pts with
  | nil => rfl
  | cons p rest ih =>
      simp only [List.all_cons, Bool.and_eq_true] at hfin
      obtain ⟨⟨hp1, hp2⟩, hrest⟩ := hfin
      obtain ⟨x, hx⟩ : ∃ x, p.1 = .fin x := by
        rcases hp : p.1 with x | _ | _ | _
        · exact ⟨x, rfl⟩
        all_goals (rw [hp] at hp1; cases hp1)
      obtain ⟨y, hy⟩ : ∃ y, p.2 = .fin y := by
        rcases hp : p.2 with y | _ | _ | _
        · exact ⟨y, rfl⟩
        all_goals (rw [hp] at hp2; cases hp2)
      have hpv : pointVal p = .arr [.num (.fin x), .num (.fin y)] := by
        rw [pointVal, hx, hy]
        rfl
      have hpt : normalizePoint (pointVal p) = some p := by
        rw [hpv, normalizePoint]
        rw [← hx, ← hy]
        rw [if_pos (by exact ⟨hp1, hp2⟩)]
      simp only [List.map_cons, collectPts, List.filterMap_cons, hpt]
      exact congrArg (p :: ·) (ih hrest)

/-- Exported point arrays normalize back to the stored points. -/
theorem pointsLike_export (pts : List JPt) (hlen : 2 ≤ pts.length)
    (hfin : pts.all (fun p => p.1.isFin && p.2.isFin) = true) :
    normalizePolylinePointsLike (.arr (pts.map pointVal)) = some pts := by
  rw [normalizePolylinePointsLike]
  rw [show collectPts (pts.map pointVal) = pts from collectPts_map pts hfin]
  rw [if_pos hlen]

/-- Serialized line types are nonempty strings. -/
theorem lineTypeStr_ne (t : LineType) : lineTypeStr t ≠ "" := by
  cases t <;> simp [lineTypeStr]

/-- Serialized line types normalize back to themselves. -/
theorem normalizeLayerLineType_str (t : LineType) :
    normalizeLayerLineType (.str (lineTypeStr t)) = t := by
  cases t <;> rfl

/-- Trimmed nonempty layer names are fixed by `normalizeLayer`. -/
theorem normalizeLayer_fixed (s : String) (h1 : jsTrim s = s) (h2 : s ≠ "") :
    normalizeLayer (.str s) = s := by
  rw [normalizeLayer]
  rw [h1, if_neg h2]

/-- Trimmed nonempty type tags are fixed by `normalizeType`. -/
theorem normalizeType_fixed (s : String) (h1 : jsTrim s = s) (h2 : s ≠ "") :
    normalizeType (.str s) = s := by
  rw [normalizeType]
  rw [h1, if_neg h2]

/-- A well-formed stored override survives the export/normalize round
trip through the override reconstruction of
`normalizePolylineItemLike`. -/
theorem overrideVal_roundtrip (o : LineOverride) (hwf : wfLineOverride o = true) :
    (if (overrideVal o).isRec ∧ (((overrideVal o).getF "type").truthy ∨
        ((overrideVal o).getF "color").truthy ∨ ((overrideVal o).getF "width").truthy) then
      some ({
        type := if ((overrideVal o).getF "type").truthy
          then some (normalizeLayerLineType ((overrideVal o).getF "type")) else none
        color := if ((overrideVal o).getF "color").truthy
          then some (normalizeColorHex ((overrideVal o).getF "color") "#000000") else none
        width := if ¬((overrideVal o).getF "width").isUndef
          then some (max (mkRat 1 10) (normalizeFiniteNumber ((overrideVal o).getF "width") 1))
          else none } : LineOverride)
     else none) = some o := by
  rcases o with ⟨ot, oc, ow⟩
  simp only [wfLineOverride, Bool.and_eq_true, Bool.or_eq_true, decide_eq_true_eq,
    and_assoc] at hwf
  obtain ⟨hsome, hc, hw⟩ := hwf
  rcases ot with _ | t <;> rcases oc with _ | c <;> rcases ow with _ | w
  · simp [Option.isSome] at hsome
  all_goals
    (simp_all [overrideVal, JsVal.getF, List.find?, JsVal.truthy, JsVal.isRec,
      JsVal.isUndef, lineTypeStr_ne, normalizeLayerLineType_str,
      normalizeFiniteNumber, max_eq_right] <;>
     try (intro h0; rw [h0] at hw; norm_num [Rat.mkRat_eq_div] at hw))

/-- One well-formed item survives the canonical-JSON round trip: the
exported record normalizes back to the same item with `source`
dropped, and without consuming a fresh id. -/
theorem itemLike_export (it : PolylineItem) (seq : ℕ) (hwf : wfItem it = true) :
    normalizePolylineItemLike (exportedPolyVal it) seq = (some (clearSource it), seq) := by
  obtain ⟨hgid, hglay, hgty, hgpts, hgvis, hgei, hglo⟩ := exported_getF it
  simp only [wfItem, Bool.and_eq_true, decide_eq_true_eq, and_assoc] at hwf
  obtain ⟨hid, hlay, hlayne, hty, htyne, hlen, hfin, hov⟩ := hwf
  rw [normalizePolylineItemLike]
  rw [if_pos ⟨rfl, by rw [hgpts]; rfl⟩]
  rw [hgpts, pointsLike_export it.points hlen hfin]
  dsimp only
  rw [hglo, hgei, hgid, hgvis, hglay, hgty]
  rw [normalizeLayer_fixed it.layer hlay hlayne, normalizeType_fixed it.type hty htyne]
  rcases hlo : it.lineOverride with _ | o <;> rcases hei : it.entityIndex with _ | n
  · dsimp only
    rw [if_pos hid]
    rcases it with ⟨iid, il, ity, ipts, ivis, ien, ilo, isrc⟩
    simp_all [clearSource, JsVal.isNullish, JsVal.truthy, JsVal.isRec]
  · dsimp only
    rw [if_pos hid]
    have hden : ((n : ℚ)).den = 1 := Rat.den_natCast n
    have hnum : ((n : ℚ)).num = (n : ℤ) := Rat.num_natCast n
    have hcond : ((n : ℚ)).den = 1 ∧ 0 ≤ ((n : ℚ)).num := by
      refine ⟨hden, ?_⟩
      rw [hnum]
      exact Int.natCast_nonneg n
    rw [if_pos hcond]
    rcases it with ⟨iid, il, ity, ipts, ivis, ien, ilo, isrc⟩
    simp_all [clearSource, JsVal.isNullish, JsVal.truthy, JsVal.isRec, Int.toNat_natCast]
  · rw [hlo] at hov
    dsimp only
    rw [overrideVal_roundtrip o hov]
    rw [if_pos hid]
    rcases it with ⟨iid, il, ity, ipts, ivis, ien, ilo, isrc⟩
    simp_all [clearSource, JsVal.isNullish, JsVal.truthy]
  · rw [hlo] at hov
    dsimp only
    rw [overrideVal_roundtrip o hov]
    rw [if_pos hid]
    have hden : ((n : ℚ)).den = 1 := Rat.den_natCast n
    have hnum : ((n : ℚ)).num = (n : ℤ) := Rat.num_natCast n
    have hcond : ((n : ℚ)).den = 1 ∧ 0 ≤ ((n : ℚ)).num := by
      refine ⟨hden, ?_⟩
      rw [hnum]
      exact Int.natCast_nonneg n
    rw [if_pos hcond]
    rcases it with ⟨iid, il, ity, ipts, ivis, ien, ilo, isrc⟩
    simp_all [clearSource, JsVal.isNullish, JsVal.truthy, Int.toNat_natCast]

/-- The collection loop maps the round trip over a list of well-formed
items without consuming fresh ids. -/
theorem normPolyList_export (items : List PolylineItem) (seq : ℕ)
    (hwf : ∀ it ∈ items, wfItem it = true) :
    normPolyList (items.map exportedPolyVal) seq = (items.map clearSource, seq) := by
  induction items generalizing seq with
  | nil => rfl
  | cons it rest ih =>
      rw [List.map_cons, normPolyList,
        itemLike_export it seq (hwf it (List.mem_cons_self it rest))]
      dsimp only
      rw [ih seq (fun x hx => hwf x (List.mem_cons_of_mem it hx))]
      rfl

/-- C3: the canonical-JSON round-trip law.  For well-formed stored
items (the invariant established by both normalizer paths), parsing
the exported document and re-normalizing it with `normalizePolylines`
reproduces exactly the exported (visible-filtered) item list — same
ids, layers, types, points, visible flags, entityIndex and
lineOverride — with only the unserialized `source` field dropped, and
without consuming any fresh ids. -/
theorem claim_C3_roundtrip (items : List PolylineItem)
    (styles : List (String × LayerStyle)) (vis : List String) (seq : ℕ)
    (hwf : ∀ it ∈ items, wfItem it = true) :
    normalizePolylines (exportDocVal items styles vis) seq =
      ((visibleItemsOf items vis).map clearSource, seq) := by
  have hraw : normalizePolylines (exportDocVal items styles vis) seq =
      normPolyList ((visibleItemsOf items vis).map exportedPolyVal) seq := by
    unfold normalizePolylines exportDocVal
    simp [JsVal.getF, List.find?]
  rw [hraw]
  exact normPolyList_export (visibleItemsOf items vis) seq
    (fun it hit => hwf it (List.mem_of_mem_filter hit))

/-- Witness for C3 at a concrete document: one visible item carrying
every optional field, one invisible item (filtered out of the
export). -/
theorem claim_C3_witness :
    (∀ it ∈ ([⟨"b", "0", "LWPOLYLINE", [fp 0 0, fp 1 1], true, some 3,
          some ⟨some .dash, some "#a1b2c3", some 1⟩, some (.obj [])⟩,
        ⟨"c", "7", "POLYLINE", [fp 2 2, fp 3 3], false, none, none, none⟩] :
        List PolylineItem), wfItem it = true) ∧
    normalizePolylines
      (exportDocVal
        [⟨"b", "0", "LWPOLYLINE", [fp 0 0, fp 1 1], true, some 3,
           some ⟨some .dash, some "#a1b2c3", some 1⟩, some (.obj [])⟩,
         ⟨"c", "7", "POLYLINE", [fp 2 2, fp 3 3], false, none, none, none⟩]
        [("0", defaultLayerStyle)] ["0"]) 7 =
      ([⟨"b", "0", "LWPOLYLINE", [fp 0 0, fp 1 1], true, some 3,
          some ⟨some .dash, some "#a1b2c3", some 1⟩, none⟩], 7) := by
  have hwf : ∀ it ∈ ([⟨"b", "0", "LWPOLYLINE", [fp 0 0, fp 1 1], true, some 3,
        some ⟨some .dash, some "#a1b2c3", some 1⟩, some (.obj [])⟩,
      ⟨"c", "7", "POLYLINE", [fp 2 2, fp 3 3], false, none, none, none⟩] :
      List PolylineItem), wfItem it = true := by
    intro it hit
    simp only [List.mem_cons, List.not_mem_nil, or_false] at hit
    rcases hit with h | h <;> rw [h] <;> with_unfolding_all rfl
  refine ⟨hwf, ?_⟩
  rw [claim_C3_roundtrip _ [("0", defaultLayerStyle)] ["0"] 7 hwf]
  with_unfolding_all rfl

/-- C9: `rotate 90` on the selected 2-point item (0,0)–(10,0), whose
axis-aligned bounding-box centre is (5,0), yields exactly the points
(5,−5) and (5,5), and succeeds.  `rc` and `rs` are the values of
`Math.cos`/`Math.sin` at the angle converted to radians, constrained
to equal the genuine cosine and sine of 90·π/180. -/
theorem claim_C9_rotate_ninety (vw vh rc rs : ℚ)
    (hc : (rc : ℝ) = Real.cos (90 * Real.pi / 180))
    (hs : (rs : ℝ) = Real.sin (90 * Real.pi / 180)) :
    runCommand vw vh rc rs stC9 =
      { stC9 with
        polylineItems := [{ itemC9 with points := [fp 5 (-5), fp 5 5] }],
        commandState := .ok } := by
  have hrad : (90 : ℝ) * Real.pi / 180 = Real.pi / 2 := by ring
  have hc0 : rc = 0 := by
    have h : (rc : ℝ) = 0 := by rw [hc, hrad, Real.cos_pi_div_two]
    exact_mod_cast h
  have hs1 : rs = 1 := by
    have h : (rs : ℝ) = 1 := by rw [hs, hrad, Real.sin_pi_div_two]
    exact_mod_cast h
  subst hc0 hs1
  with_unfolding_all rfl

/-- Witness for C9 at the concrete trigonometric values cos(π/2) = 0
and sin(π/2) = 1. -/
theorem claim_C9_witness :
    runCommand 800 600 0 1 stC9 =
      { stC9 with
        polylineItems := [{ itemC9 with points := [fp 5 (-5), fp 5 5] }],
        commandState := .ok } := by
  have hrad : (90 : ℝ) * Real.pi / 180 = Real.pi / 2 := by ring
  exact claim_C9_rotate_ninety 800 600 0 1
    (by rw [hrad, Real.cos_pi_div_two]; norm_num)
    (by rw [hrad, Real.sin_pi_div_two]; norm_num)

/-- C7: every failure path of `runCommand` — unknown verb, missing
selection for `move`/`scale`/`rotate`, non-finite (or, for `scale`,
zero) numeric arguments, or a target id that resolves to no item —
produces exactly the input state with `commandState := .fail`: the
Polyline Item list, selection, layer styles and viewport are all
untouched.  The validations run before any mutation, so no partial
update can occur. -/
theorem claim_C7_failure_inert (vw vh rc rs : ℚ) (st : EditorState)
    (parts : List String) (hp : parts = cmdTokens st.commandLine)
    (cmd : String) (hcmd : cmd = jsToLower (parts.headD ""))
    (hfail :
      cmd ∉ (["clear", "delete", "copy", "export", "refresh-json",
              "apply-json", "fit", "move", "scale", "rotate", ""] : List String) ∨
      (cmd ∈ (["move", "scale", "rotate"] : List String) ∧ targetIdOf st = none) ∨
      (cmd = "move" ∧
        (¬(toNumber (argVal parts 1)).isFin ∨ ¬(toNumber (argVal parts 2)).isFin)) ∨
      (cmd = "scale" ∧
        (¬(toNumber (argVal parts 1)).isFin ∨
         ¬(if 3 ≤ parts.length then toNumber (argVal parts 2)
           else toNumber (argVal parts 1)).isFin ∨
         toNumber (argVal parts 1) = .fin 0 ∨
         (if 3 ≤ parts.length then toNumber (argVal parts 2)
          else toNumber (argVal parts 1)) = .fin 0)) ∨
      (cmd = "rotate" ∧ ¬(toNumber (argVal parts 1)).isFin) ∨
      (cmd ∈ (["move", "scale", "rotate"] : List String) ∧
        ∃ id, targetIdOf st = some id ∧ findItemById st.polylineItems id = none)) :
    runCommand vw vh rc rs st = { st with commandState := .fail } := by
  have hrun : runCommand vw vh rc rs st
      = runVerb cmd parts vw vh rc rs { st with commandState := .idle } := by
    rw [hcmd, hp]
    rfl
  rw [hrun]
  have htgeq : targetIdOf { st with commandState := TriState.idle }
      = targetIdOf st := rfl
  rcases hfail with h | ⟨hm, htg⟩ | ⟨he, ha⟩ | ⟨he, ha⟩ | ⟨he, ha⟩ | ⟨hm, id, htg, hfind⟩
  · simp only [List.mem_cons, List.not_mem_nil, or_false, not_or] at h
    obtain ⟨h1, h2, h3, h4, h5, h6, h7, h8, h9, h10, h11⟩ := h
    rw [runVerb, if_neg h1, if_neg h2, if_neg h3, if_neg h4, if_neg h5,
      if_neg h6, if_neg h7, if_neg h8, if_neg h9, if_neg h10, if_neg h11]
  · simp only [List.mem_cons, List.not_mem_nil, or_false] at hm
    rcases hm with he | he | he <;> subst he <;> rw [runVerb] <;>
      simp only [String.reduceEq, reduceIte] <;> rw [htgeq, htg]
  · subst he
    rw [runVerb]
    simp only [String.reduceEq, reduceIte]
    rw [htgeq]
    cases htg : targetIdOf st with
    | none => rfl
    | some id =>
        dsimp only
        rw [if_pos ha]
  · subst he
    rw [runVerb]
    simp only [String.reduceEq, reduceIte]
    rw [htgeq]
    cases htg : targetIdOf st with
    | none => rfl
    | some id =>
        dsimp only
        rw [if_pos ha]
  · subst he
    rw [runVerb]
    simp only [String.reduceEq, reduceIte]
    rw [htgeq]
    cases htg : targetIdOf st with
    | none => rfl
    | some id =>
        dsimp only
        rw [if_pos ha]
  · simp only [List.mem_cons, List.not_mem_nil, or_false] at hm
    rcases hm with he | he | he <;> subst he <;> rw [runVerb] <;>
      simp only [String.reduceEq, reduceIte] <;> rw [htgeq, htg] <;> dsimp only <;>
      rw [hfind] <;> repeat' (first | rfl | split)

/-- Witness for C7: the unknown verb `frobnicate` fails and leaves the
state otherwise unchanged. -/
theorem claim_C7_witness :
    runCommand 800 600 1 0 stC7 = { stC7 with commandState := .fail } := by
  exact claim_C7_failure_inert 800 600 1 0 stC7 _ rfl _ rfl
    (Or.inl (by with_unfolding_all decide))
